import Mathlib

/-!
# WireZ: the shared-buffer transaction layer of `TwoWireZ`

A shallow embedding of `src/WireZ.cpp`.

* The class variables of `TwoWireZ` are the fields of `State`; every member
  function is a function from the state (and its arguments) to the new state
  and the returned value.
* Memory is one flat byte-addressed space (`Mem`); a pointer is the address of
  its first byte and `NULL` is address `0`.  The internal array `xBuffer` lives
  at the address `Platform.xBuffer`.
* `uint8_t` variables are naturals; every place where the C code can wrap or
  narrows a wider integer into a `uint8_t` variable carries an explicit
  `% 256`.  Arguments declared `uint8_t` are naturals that the caller keeps
  below 256.
* The bus driver (`twiz.h`) is not part of the sources.  Every call into it is
  appended to `State.trace`; what the driver answers (a status code, the bytes
  it stored and the count it returned) is an argument of the operation that
  makes the call.  A call of a registered user callback is a trace entry as
  well: the body of a callback is application code, that is, further
  operations applied to the state the callback was entered with.
* Byte arrays handed in by pointer (`inBytes`, `data`) are passed by value, as
  the function `i ↦ array[i]`.
-/

namespace WireZ

/-! ## Memory -/

/-- Byte-addressed memory: the byte stored at every address. -/
abbrev Mem := Nat → Nat

/-- The store `p[0] = v` for a byte pointer `p = a`. -/
def Mem.store (m : Mem) (a v : Nat) : Mem :=
  fun x => if x = a then v else m x

/-- The bytes `p[0], …, p[n-1]`. -/
def Mem.load (m : Mem) (p n : Nat) : List Nat :=
  (List.range n).map (fun i => m (p + i))

/-- The memory after the bytes `bs` were stored at `p[0 .. bs.length)`. -/
def Mem.storeList (m : Mem) (p : Nat) (bs : List Nat) : Mem :=
  fun x => if p ≤ x ∧ x - p < bs.length then bs.getD (x - p) 0 else m x

/-! ## Driver calls and callbacks -/

/-- One call that leaves the transaction layer: a call of a driver function of
`twiz.h` with its arguments (for a transmit, also the bytes the buffer holds at
the time of the call), or a call of a registered user callback. -/
inductive Event where
  | twi_init
  | twi_attachSlaveTxEvent
  | twi_attachSlaveRxEvent
  | twi_setAddress (address : Nat)
  | twi_disable
  | twi_setUserBuffer (buffer length : Nat)
  | twi_setFrequency (clock : Nat)
  | twi_setTimeoutInMicros (timeout : Nat) (reset_with_timeout : Bool)
  | twi_manageTimeoutFlag (clear_flag : Bool)
  | twi_readFrom (address buffer quantity sendStop : Nat)
  | twi_writeTo (address buffer length wait sendStop : Nat) (payload : List Nat)
  | twi_transmit (payload : List Nat)
  | user_onReceive (function : Nat) (numBytes : Int)
  | user_onRequest (function : Nat)
  deriving DecidableEq, Repr

/-- What the driver does in one `twi_readFrom` call: it stores `data` at the
start of the buffer it was given and returns `count`. -/
structure ReadReply where
  data : List Nat
  count : Nat
  deriving DecidableEq, Repr

/-- The compile-time facts of `WireZ.h`: the macro `BUFFER_LENGTH` and the
address of the static array `xBuffer`. -/
structure Platform where
  BUFFER_LENGTH : Nat
  xBuffer : Nat

/-! ## State -/

/-- The class variables of `TwoWireZ`, the memory, the inherited
`Print::write_error`, the zero-copy target last given to the driver, and the
trace of driver and callback calls. -/
structure State where
  mem : Mem
  bUserBuffer : Bool
  X_BUFFER_LENGTH : Nat
  rxBuffer : Nat
  rxBufferIndex : Nat
  rxBufferLength : Nat
  txAddress : Nat
  txBuffer : Nat
  txBufferIndex : Nat
  txBufferLength : Nat
  transmitting : Nat
  user_onRequest : Nat
  user_onReceive : Nat
  write_error : Nat
  twiUserBuffer : Nat × Nat
  trace : List Event

/-- The static initialisers of `WireZ.cpp` (lines 38-53); `mem` is the memory
the program starts with. -/
def initial (P : Platform) (mem : Mem) : State :=
  { mem := mem
    bUserBuffer := false
    X_BUFFER_LENGTH := P.BUFFER_LENGTH % 256
    rxBuffer := P.xBuffer
    rxBufferIndex := 0
    rxBufferLength := 0
    txAddress := 0
    txBuffer := P.xBuffer
    txBufferIndex := 0
    txBufferLength := 0
    transmitting := 0
    user_onRequest := 0
    user_onReceive := 0
    write_error := 0
    twiUserBuffer := (0, 0)
    trace := [] }

/-- Append one call to the trace. -/
def State.emit (s : State) (e : Event) : State :=
  { s with trace := s.trace ++ [e] }

/-- Modelled from the spec: `Print::setWriteError()` of the Arduino core, which
is not among the sources; the overflow is "recorded as a stateful write-error
flag", here the value 1 in `write_error`. -/
def setWriteError (s : State) : State :=
  { s with write_error := 1 }

/-- Modelled from the spec: `twi_setUserBuffer` of the driver, which is not
among the sources; it "configures whether the driver copies into its own
staging area or writes/reads the given buffer directly": the driver keeps the
pair it was last given, `(NULL, 0)` meaning no zero-copy target. -/
def twi_setUserBuffer (s : State) (buffer length : Nat) : State :=
  { s with twiUserBuffer := (buffer, length)
           trace := s.trace ++ [Event.twi_setUserBuffer buffer length] }

/-- Modelled from the spec: `twi_readFrom` of the driver, which is not among
the sources; a "blocking receive" into the buffer it is given. The bytes it
stores and the count it returns are the reply `rd`. -/
def twi_readFrom (s : State) (address buffer quantity sendStop : Nat) (rd : ReadReply) : State :=
  { s with mem := s.mem.storeList buffer rd.data
           trace := s.trace ++ [Event.twi_readFrom address buffer quantity sendStop] }

/-! ## Public methods -/

/-- `TwoWireZ::begin(void)`. -/
def begin (s : State) : State :=
  { s with rxBufferIndex := 0
           rxBufferLength := 0
           txBufferIndex := 0
           txBufferLength := 0
           trace := s.trace ++ [Event.twi_init, Event.twi_attachSlaveTxEvent,
                                Event.twi_attachSlaveRxEvent] }

/-- `TwoWireZ::begin(uint8_t address)`. -/
def beginAddress (s : State) (address : Nat) : State :=
  (begin s).emit (Event.twi_setAddress address)

/-- `TwoWireZ::end(void)`. -/
def «end» (s : State) : State :=
  s.emit Event.twi_disable

/-- `TwoWireZ::setUserBuffer(uint8_t* uBuffer, uint8_t uLength, bool twi_zero_copy)`. -/
def setUserBuffer (P : Platform) (s : State) (uBuffer uLength : Nat) (twi_zero_copy : Bool) :
    State :=
  let (s1, twi_zero_copy) :=
    if uBuffer ≠ 0 ∧ uLength ≠ 0 then
      ({ s with bUserBuffer := true
                X_BUFFER_LENGTH := uLength
                rxBuffer := uBuffer
                txBuffer := uBuffer }, twi_zero_copy)
    else
      ({ s with bUserBuffer := false
                X_BUFFER_LENGTH := P.BUFFER_LENGTH % 256
                rxBuffer := P.xBuffer
                txBuffer := P.xBuffer }, false)
  if twi_zero_copy then twi_setUserBuffer s1 uBuffer uLength
  else twi_setUserBuffer s1 0 0

/-- `TwoWireZ::setClock`. -/
def setClock (s : State) (clock : Nat) : State :=
  s.emit (Event.twi_setFrequency clock)

/-- `TwoWireZ::setWireTimeout`. -/
def setWireTimeout (s : State) (timeout : Nat) (reset_with_timeout : Bool) : State :=
  s.emit (Event.twi_setTimeoutInMicros timeout reset_with_timeout)

/-- `TwoWireZ::getWireTimeoutFlag`; `flag` is what the driver answers. -/
def getWireTimeoutFlag (s : State) (flag : Bool) : State × Bool :=
  (s.emit (Event.twi_manageTimeoutFlag false), flag)

/-- `TwoWireZ::clearWireTimeoutFlag`. -/
def clearWireTimeoutFlag (s : State) : State :=
  s.emit (Event.twi_manageTimeoutFlag true)

/-- `TwoWireZ::beginTransmission(uint8_t address)`. -/
def beginTransmission (s : State) (address : Nat) : State :=
  { s with transmitting := 1
           txAddress := address
           txBufferIndex := 0
           txBufferLength := 0 }

/-- `TwoWireZ::endTransmission(uint8_t sendStop)`; `ret` is the status the
driver's `twi_writeTo` returns. -/
def endTransmission (s : State) (sendStop : Nat) (ret : Nat) : State × Nat :=
  ({ s with trace := s.trace ++ [Event.twi_writeTo s.txAddress s.txBuffer s.txBufferLength 1
                                   sendStop (s.mem.load s.txBuffer s.txBufferLength)]
            txBufferIndex := 0
            txBufferLength := 0
            transmitting := 0 },
   ret % 256)

/-- `TwoWireZ::endTransmission(void)`. -/
def endTransmissionVoid (s : State) (ret : Nat) : State × Nat :=
  endTransmission s 1 ret

/-- `TwoWireZ::write(uint8_t data)`. -/
def write (s : State) (data : Nat) : State × Nat :=
  if s.transmitting ≠ 0 then
    if s.txBufferLength ≥ s.X_BUFFER_LENGTH then
      (setWriteError s, 0)
    else
      ({ s with mem := s.mem.store (s.txBuffer + s.txBufferIndex) data
                txBufferIndex := (s.txBufferIndex + 1) % 256
                txBufferLength := (s.txBufferIndex + 1) % 256 },
       1)
  else
    (s.emit (Event.twi_transmit [data]), 1)

/-- `TwoWireZ::write(const uint8_t *data, size_t quantity)`; `data i` is
`data[i]`. -/
def writeBytes (s : State) (data : Nat → Nat) (quantity : Nat) : State × Nat :=
  if s.transmitting ≠ 0 then
    ((List.range quantity).foldl (fun t i => (write t (data i)).1) s, quantity)
  else
    (s.emit (Event.twi_transmit ((List.range quantity).map data)), quantity)

/-- `TwoWireZ::writeZeroCopy(size_t quantity)`. -/
def writeZeroCopy (s : State) (quantity : Nat) : State × Nat :=
  if s.transmitting ≠ 0 then
    if s.txBufferLength ≥ s.X_BUFFER_LENGTH ∨ s.bUserBuffer = false then
      (setWriteError s, 0)
    else
      ({ s with txBufferIndex := quantity % 256
                txBufferLength := quantity % 256 },
       quantity)
  else
    (s.emit (Event.twi_transmit (s.mem.load s.txBuffer quantity)), quantity)

/-- The array `ibuff` of `requestFrom`: `ibuff[0..2]` as assigned in lines
186-188; `ibuff[3]` is never assigned and never read. -/
def ibuff (iaddress : Nat) (i : Nat) : Nat :=
  [(iaddress >>> 16) &&& 0xff, (iaddress >>> 8) &&& 0xff, iaddress &&& 0xff].getD i 0

/-- The inner address write of `requestFrom` (lines 166-202, the body of
`if (isize > 0)`); `wret` is the status the driver's `twi_writeTo` returns. -/
def requestFromInner (s : State) (address iaddress isize : Nat) (wret : Nat) : State :=
  let s1 := beginTransmission s address
  let isize := if isize > 3 then 3 else isize
  let s2 := if s1.bUserBuffer then twi_setUserBuffer s1 0 0 else s1
  let s3 := (writeBytes s2 (ibuff iaddress) isize).1
  let s4 := (endTransmission s3 0 wret).1
  if s4.bUserBuffer then twi_setUserBuffer s4 s4.txBuffer s4.X_BUFFER_LENGTH else s4

/-- `TwoWireZ::requestFrom(uint8_t address, uint8_t quantity, uint32_t iaddress,
uint8_t isize, uint8_t sendStop)`; `wret` is the status of the inner
`twi_writeTo` (used only when `isize > 0`), `rd` is what `twi_readFrom` does. -/
def requestFrom (s : State) (address quantity iaddress isize sendStop : Nat)
    (wret : Nat) (rd : ReadReply) : State × Nat :=
  let s1 := if isize > 0 then requestFromInner s address iaddress isize wret else s
  let quantity := if quantity > s1.X_BUFFER_LENGTH then s1.X_BUFFER_LENGTH else quantity
  let s2 := twi_readFrom s1 address s1.rxBuffer quantity sendStop rd
  let read := rd.count % 256
  ({ s2 with rxBufferIndex := 0, rxBufferLength := read }, read)

/-- `TwoWireZ::requestFrom(uint8_t address, uint8_t quantity, uint8_t sendStop)`. -/
def requestFrom3 (s : State) (address quantity sendStop : Nat) (rd : ReadReply) : State × Nat :=
  requestFrom s (address % 256) (quantity % 256) 0 0 (sendStop % 256) 0 rd

/-- `TwoWireZ::requestFrom(uint8_t address, uint8_t quantity)`. -/
def requestFrom2 (s : State) (address quantity : Nat) (rd : ReadReply) : State × Nat :=
  requestFrom3 s (address % 256) (quantity % 256) 1 rd

/-- `TwoWireZ::requestFrom(int address, int quantity)`. -/
def requestFromInt2 (s : State) (address quantity : Int) (rd : ReadReply) : State × Nat :=
  requestFrom3 s (address % 256).toNat (quantity % 256).toNat 1 rd

/-- `TwoWireZ::requestFrom(int address, int quantity, int sendStop)`. -/
def requestFromInt3 (s : State) (address quantity sendStop : Int) (rd : ReadReply) :
    State × Nat :=
  requestFrom3 s (address % 256).toNat (quantity % 256).toNat (sendStop % 256).toNat rd

/-- `TwoWireZ::available`. -/
def available (s : State) : Int :=
  (s.rxBufferLength : Int) - (s.rxBufferIndex : Int)

/-- `TwoWireZ::read`. -/
def read (s : State) : State × Int :=
  if s.rxBufferIndex < s.rxBufferLength then
    ({ s with rxBufferIndex := (s.rxBufferIndex + 1) % 256 },
     (s.mem (s.rxBuffer + s.rxBufferIndex) : Int))
  else
    (s, -1)

/-- `TwoWireZ::peek`. -/
def peek (s : State) : State × Int :=
  if s.rxBufferIndex < s.rxBufferLength then
    (s, (s.mem (s.rxBuffer + s.rxBufferIndex) : Int))
  else
    (s, -1)

/-- `TwoWireZ::flush`. -/
def flush (s : State) : State := s

/-- The copy loop of `onReceiveService` (lines 417-419):
`for(uint8_t i = 0; i < numBytes; ++i) rxBuffer[i] = inBytes[i];` started at
counter `i` with memory `m`. One unit of fuel is one evaluation of the loop
condition; `none` is fuel exhausted. -/
def rxCopy (inBytes : Nat → Nat) (numBytes : Int) (rxBuffer : Nat) : Nat → Nat → Mem → Option Mem
  | 0, _, _ => none
  | fuel + 1, i, m =>
    if (i : Int) < numBytes then
      rxCopy inBytes numBytes rxBuffer fuel ((i + 1) % 256) (m.store (rxBuffer + i) (inBytes i))
    else
      some m

/-- `TwoWireZ::onReceiveService(uint8_t* inBytes, int numBytes)`; `inBytes i`
is `inBytes[i]`. The loop counter is a `uint8_t`, so the condition is
evaluated at most 256 times in a run that ends: `none` is a loop that never
ends. -/
def onReceiveService (s : State) (inBytes : Nat → Nat) (numBytes : Int) : Option State :=
  if s.user_onReceive = 0 then
    some s
  else if s.rxBufferIndex < s.rxBufferLength then
    some s
  else
    match rxCopy inBytes numBytes s.rxBuffer 256 0 s.mem with
    | none => none
    | some m =>
      some { s with mem := m
                    rxBufferIndex := 0
                    rxBufferLength := (numBytes % 256).toNat
                    trace := s.trace ++ [Event.user_onReceive s.user_onReceive numBytes] }

/-- `TwoWireZ::onRequestService`. -/
def onRequestService (s : State) : State :=
  if s.user_onRequest = 0 then
    s
  else
    { s with txBufferIndex := 0
             txBufferLength := 0
             trace := s.trace ++ [Event.user_onRequest s.user_onRequest] }

/-- `TwoWireZ::onReceive`. -/
def onReceive (s : State) (function : Nat) : State :=
  { s with user_onReceive := function }

/-- `TwoWireZ::onRequest`. -/
def onRequest (s : State) (function : Nat) : State :=
  { s with user_onRequest := function }

/-! ## Sequences of calls and reachable states -/

/-- The calls `write(b)` for each `b` of `bs`, in order. -/
def writeAll (s : State) (bs : List Nat) : State :=
  bs.foldl (fun t b => (write t b).1) s

/-- The state after `k` calls of `read()`. -/
def readTimes (k : Nat) (s : State) : State :=
  Nat.iterate (fun t => (read t).1) k s

/-- The states the program can be in: the initial state, and every state
reached from it by a public method or a driver upcall. Arguments are
arbitrary, the driver answers arbitrarily; `uLength` is a `uint8_t`. -/
inductive Reachable (P : Platform) : State → Prop where
  | init (mem : Mem) : Reachable P (initial P mem)
  | begin {s : State} : Reachable P s → Reachable P (begin s)
  | beginAddress {s : State} (address : Nat) : Reachable P s → Reachable P (beginAddress s address)
  | end_ {s : State} : Reachable P s → Reachable P («end» s)
  | setUserBuffer {s : State} (uBuffer uLength : Nat) (twi_zero_copy : Bool) :
      uLength < 256 → Reachable P s → Reachable P (setUserBuffer P s uBuffer uLength twi_zero_copy)
  | setClock {s : State} (clock : Nat) : Reachable P s → Reachable P (setClock s clock)
  | setWireTimeout {s : State} (timeout : Nat) (r : Bool) :
      Reachable P s → Reachable P (setWireTimeout s timeout r)
  | getWireTimeoutFlag {s : State} (flag : Bool) :
      Reachable P s → Reachable P (getWireTimeoutFlag s flag).1
  | clearWireTimeoutFlag {s : State} : Reachable P s → Reachable P (clearWireTimeoutFlag s)
  | requestFrom {s : State} (address quantity iaddress isize sendStop wret : Nat)
      (rd : ReadReply) :
      Reachable P s → Reachable P (requestFrom s address quantity iaddress isize sendStop wret rd).1
  | beginTransmission {s : State} (address : Nat) :
      Reachable P s → Reachable P (beginTransmission s address)
  | endTransmission {s : State} (sendStop ret : Nat) :
      Reachable P s → Reachable P (endTransmission s sendStop ret).1
  | write {s : State} (data : Nat) : Reachable P s → Reachable P (write s data).1
  | writeBytes {s : State} (data : Nat → Nat) (quantity : Nat) :
      Reachable P s → Reachable P (writeBytes s data quantity).1
  | writeZeroCopy {s : State} (quantity : Nat) :
      Reachable P s → Reachable P (writeZeroCopy s quantity).1
  | read {s : State} : Reachable P s → Reachable P (read s).1
  | peek {s : State} : Reachable P s → Reachable P (peek s).1
  | flush {s : State} : Reachable P s → Reachable P (flush s)
  | onReceiveService {s t : State} (inBytes : Nat → Nat) (numBytes : Int) :
      Reachable P s → onReceiveService s inBytes numBytes = some t → Reachable P t
  | onRequestService {s : State} : Reachable P s → Reachable P (onRequestService s)
  | onReceive {s : State} (function : Nat) : Reachable P s → Reachable P (onReceive s function)
  | onRequest {s : State} (function : Nat) : Reachable P s → Reachable P (onRequest s function)

/-- What every reachable state satisfies and the master write path relies on:
the two halves of the write cursor agree, and the capacity is a `uint8_t`. -/
def TxInv (s : State) : Prop :=
  s.txBufferIndex = s.txBufferLength ∧ s.X_BUFFER_LENGTH < 256

/-! ## Concrete inputs -/

/-- A platform with the usual `BUFFER_LENGTH` of 32 and `xBuffer` at 0x100. -/
def P0 : Platform := { BUFFER_LENGTH := 32, xBuffer := 0x100 }

/-- A memory holding zeros. -/
def mem0 : Mem := fun _ => 0

/-- The program just started on `P0`. -/
def s0 : State := initial P0 mem0

/-- An external buffer of 32 bytes at 0x200, zero-copy requested. -/
def sExt : State := setUserBuffer P0 s0 0x200 32 true

/-- An external buffer of 16 bytes at 0x200, zero-copy not requested. -/
def sExtCopy : State := setUserBuffer P0 s0 0x200 16 false

/-- An external buffer of 2 bytes at 0x200, zero-copy not requested. -/
def sExtTiny : State := setUserBuffer P0 s0 0x200 2 false

/-- The program after a master read that delivered the four bytes 1, 2, 3, 4. -/
def sRead4 : State := (requestFrom s0 0x50 4 0 0 1 0 ⟨[1, 2, 3, 4], 4⟩).1

/-- Master-transmitting on the external buffer of 2 bytes. -/
def sTinyTx : State := beginTransmission sExtTiny 0x50

/-- Three bytes buffered in the internal buffer, then a switch to an external
buffer of 2 bytes. -/
def sShrunkTx : State :=
  setUserBuffer P0 (writeBytes (beginTransmission s0 0x50) (fun i => i + 1) 3).1 0x200 2 false

/-- Four bytes read into the internal buffer, then a switch to an external
buffer of 2 bytes. -/
def sShrunkRx : State := setUserBuffer P0 sRead4 0x200 2 false

/-- The state after `writeZeroCopy(40)` on the external buffer of 32 bytes. -/
def sOverrun : State := (writeZeroCopy (beginTransmission sExt 0x50) 40).1

/-! ## Runs of calls -/

/-- One call of a public method or one driver upcall, with its arguments and
with what the driver answers in it. -/
inductive Call where
  | begin
  | beginAddress (address : Nat)
  | end_
  | setUserBuffer (uBuffer uLength : Nat) (twi_zero_copy : Bool)
  | setClock (clock : Nat)
  | setWireTimeout (timeout : Nat) (reset_with_timeout : Bool)
  | getWireTimeoutFlag (flag : Bool)
  | clearWireTimeoutFlag
  | requestFrom (address quantity iaddress isize sendStop wret : Nat) (rd : ReadReply)
  | beginTransmission (address : Nat)
  | endTransmission (sendStop ret : Nat)
  | write (data : Nat)
  | writeBytes (data : Nat → Nat) (quantity : Nat)
  | writeZeroCopy (quantity : Nat)
  | read
  | peek
  | flush
  | onReceiveService (inBytes : Nat → Nat) (numBytes : Int)
  | onRequestService
  | onReceive (function : Nat)
  | onRequest (function : Nat)

/-- The state a call leaves; `none` when the call does not return. -/
def runCall (P : Platform) (s : State) : Call → Option State
  | .begin => some (begin s)
  | .beginAddress address => some (beginAddress s address)
  | .end_ => some («end» s)
  | .setUserBuffer uBuffer uLength z => some (setUserBuffer P s uBuffer uLength z)
  | .setClock clock => some (setClock s clock)
  | .setWireTimeout timeout r => some (setWireTimeout s timeout r)
  | .getWireTimeoutFlag flag => some (getWireTimeoutFlag s flag).1
  | .clearWireTimeoutFlag => some (clearWireTimeoutFlag s)
  | .requestFrom address quantity iaddress isize sendStop wret rd =>
      some (requestFrom s address quantity iaddress isize sendStop wret rd).1
  | .beginTransmission address => some (beginTransmission s address)
  | .endTransmission sendStop ret => some (endTransmission s sendStop ret).1
  | .write data => some (write s data).1
  | .writeBytes data quantity => some (writeBytes s data quantity).1
  | .writeZeroCopy quantity => some (writeZeroCopy s quantity).1
  | .read => some (read s).1
  | .peek => some (peek s).1
  | .flush => some (flush s)
  | .onReceiveService inBytes numBytes => onReceiveService s inBytes numBytes
  | .onRequestService => some (onRequestService s)
  | .onReceive function => some (onReceive s function)
  | .onRequest function => some (onRequest s function)

/-- The states reached from the initial state by calls that each satisfy `ok`
in the state they are made in. -/
inductive ReachableBy (P : Platform) (ok : State → Call → Prop) : State → Prop where
  | init (mem : Mem) : ReachableBy P ok (initial P mem)
  | step {s t : State} (c : Call) :
      ReachableBy P ok s → ok s c → runCall P s c = some t → ReachableBy P ok t

/-- The calls that keep the write cursor within the capacity: `setUserBuffer`
with a `uint8_t` length and a capacity that still holds what is buffered, and,
in master-transmitting mode, `writeZeroCopy` of no more than the capacity. Every
other call is free. -/
def TxDiscipline (P : Platform) (s : State) : Call → Prop
  | .setUserBuffer uBuffer uLength z =>
      uLength < 256 ∧ s.txBufferLength ≤ (setUserBuffer P s uBuffer uLength z).X_BUFFER_LENGTH
  | .writeZeroCopy quantity => s.transmitting ≠ 0 → quantity ≤ s.X_BUFFER_LENGTH
  | _ => True

/-- The driver of the read-cursor claim: its read returns at most the count it
was asked for, and its data-received upcall delivers `n >= 0` bytes;
`uLength` is a `uint8_t`. -/
def RxAssumed (s : State) : Call → Prop
  | .setUserBuffer _ uLength _ => uLength < 256
  | .requestFrom _ quantity _ _ _ _ rd => rd.count ≤ min quantity s.X_BUFFER_LENGTH
  | .onReceiveService _ numBytes => 0 ≤ numBytes
  | _ => True

/-- The calls that keep the read cursor within the capacity: those of
`RxAssumed`, with `setUserBuffer` only to a capacity that still holds the
read region and the data-received upcall delivering no more than the capacity. -/
def RxDiscipline (P : Platform) (s : State) : Call → Prop
  | .setUserBuffer uBuffer uLength z =>
      uLength < 256 ∧ s.rxBufferLength ≤ (setUserBuffer P s uBuffer uLength z).X_BUFFER_LENGTH
  | .requestFrom _ quantity _ _ _ _ rd => rd.count ≤ min quantity s.X_BUFFER_LENGTH
  | .onReceiveService _ numBytes => 0 ≤ numBytes ∧ numBytes ≤ (s.X_BUFFER_LENGTH : Int)
  | _ => True

/-- What every reachable state satisfies on the read side: the read index does
not pass the read length, the read length is a `uint8_t`, and reading and
writing use the same buffer. -/
def RxInv (s : State) : Prop :=
  s.rxBufferIndex ≤ s.rxBufferLength ∧ s.rxBufferLength < 256 ∧ s.rxBuffer = s.txBuffer

/-- The bulk write in the words of the specification, "a bulk copy with the
same truncation contract": the first `min(n, capacity - txLength)` bytes of
`data` are appended at the write cursor in order, and the write-error flag is
set when `n` exceeds the remaining capacity. -/
def writeBulk (s : State) (data : Nat → Nat) (n : Nat) : State :=
  { s with mem := s.mem.storeList (s.txBuffer + s.txBufferIndex)
                    ((List.range (min n (s.X_BUFFER_LENGTH - s.txBufferLength))).map data)
           txBufferIndex := s.txBufferIndex + min n (s.X_BUFFER_LENGTH - s.txBufferLength)
           txBufferLength := s.txBufferLength + min n (s.X_BUFFER_LENGTH - s.txBufferLength)
           write_error := if n > s.X_BUFFER_LENGTH - s.txBufferLength then 1 else s.write_error }

/-! ## Memory lemmas -/

theorem Mem.storeList_cons (m : Mem) (a b : Nat) (bs : List Nat) :
    Mem.storeList (Mem.store m a b) (a + 1) bs = Mem.storeList m a (b :: bs) := by
  funext x
  unfold Mem.storeList Mem.store
  by_cases h1 : a + 1 ≤ x ∧ x - (a + 1) < bs.length
  · have h2 : a ≤ x ∧ x - a < (b :: bs).length := by
      simp only [List.length_cons]; omega
    have h3 : x - a = (x - (a + 1)) + 1 := by omega
    rw [if_pos h1, if_pos h2, h3]
    simp
  · rw [if_neg h1]
    by_cases hx : x = a
    · subst hx
      simp
    · have h2 : ¬ (a ≤ x ∧ x - a < (b :: bs).length) := by
        simp only [List.length_cons]; omega
      rw [if_neg hx, if_neg h2]

theorem Mem.storeList_nil (m : Mem) (p : Nat) : Mem.storeList m p [] = m := by
  funext x
  simp [Mem.storeList]

theorem Mem.storeList_at (m : Mem) (p : Nat) (bs : List Nat) (k : Nat) (hk : k < bs.length) :
    Mem.storeList m p bs (p + k) = bs.getD k 0 := by
  simp [Mem.storeList, hk]

theorem Mem.load_storeList (m : Mem) (p : Nat) (bs : List Nat) :
    Mem.load (Mem.storeList m p bs) p bs.length = bs := by
  apply List.ext_getElem
  · simp [Mem.load]
  · intro i h1 h2
    simp only [Mem.load, List.getElem_map, List.getElem_range]
    rw [Mem.storeList_at m p bs i h2]
    simp [List.getD_eq_getElem, h2]

/-! ## The master write path -/

theorem writeAll_cons (s : State) (b : Nat) (bs : List Nat) :
    writeAll s (b :: bs) = writeAll (write s b).1 bs := rfl

/-- In master-transmitting mode a run of `write` calls changes nothing but the
buffer contents, the write cursor and the write-error flag. -/
theorem writeAll_frame (bs : List Nat) (s : State) (h : s.transmitting ≠ 0) :
    ∃ m i l e, writeAll s bs =
      { s with mem := m, txBufferIndex := i, txBufferLength := l, write_error := e } := by
  induction bs generalizing s with
  | nil => exact ⟨s.mem, s.txBufferIndex, s.txBufferLength, s.write_error, rfl⟩
  | cons b bs ih =>
    rw [writeAll_cons]
    by_cases hfull : s.txBufferLength ≥ s.X_BUFFER_LENGTH
    · have hw : (write s b).1 = setWriteError s := by simp [write, h, hfull]
      obtain ⟨m, i, l, e, hm⟩ := ih (setWriteError s) h
      exact ⟨m, i, l, e, by rw [hw, hm]; rfl⟩
    · have hw : (write s b).1 =
          { s with mem := s.mem.store (s.txBuffer + s.txBufferIndex) b
                   txBufferIndex := (s.txBufferIndex + 1) % 256
                   txBufferLength := (s.txBufferIndex + 1) % 256 } := by
        simp [write, h, hfull]
      obtain ⟨m, i, l, e, hm⟩ := ih (write s b).1 (by rw [hw]; exact h)
      exact ⟨m, i, l, e, by rw [hm, hw]⟩

/-- A run of `write` calls that fits: the bytes land at the cursor in order. -/
theorem writeAll_fits (bs : List Nat) (s : State) (h : s.transmitting ≠ 0)
    (hidx : s.txBufferIndex = s.txBufferLength)
    (hfit : s.txBufferLength + bs.length ≤ s.X_BUFFER_LENGTH) (hcap : s.X_BUFFER_LENGTH < 256) :
    writeAll s bs =
      { s with mem := s.mem.storeList (s.txBuffer + s.txBufferIndex) bs
               txBufferIndex := s.txBufferIndex + bs.length
               txBufferLength := s.txBufferLength + bs.length } := by
  induction bs generalizing s with
  | nil => simp [writeAll, Mem.storeList_nil]
  | cons b bs ih =>
    rw [writeAll_cons]
    simp only [List.length_cons] at hfit
    have hfull : ¬ s.txBufferLength ≥ s.X_BUFFER_LENGTH := by omega
    have hmod : (s.txBufferIndex + 1) % 256 = s.txBufferIndex + 1 := by
      apply Nat.mod_eq_of_lt; omega
    have hw : (write s b).1 =
        { s with mem := s.mem.store (s.txBuffer + s.txBufferIndex) b
                 txBufferIndex := s.txBufferIndex + 1
                 txBufferLength := s.txBufferIndex + 1 } := by
      simp [write, h, hfull, hmod]
    have hrec := ih (write s b).1 (by rw [hw]; exact h) (by rw [hw])
      (by rw [hw]; simp only; omega) (by rw [hw]; exact hcap)
    rw [hrec, hw]
    simp only [List.length_cons]
    rw [show s.txBuffer + (s.txBufferIndex + 1) = (s.txBuffer + s.txBufferIndex) + 1 from by omega,
      Mem.storeList_cons, hidx]
    congr 1 <;> omega

theorem writeBytes_eq (s : State) (data : Nat → Nat) (quantity : Nat) (h : s.transmitting ≠ 0) :
    (writeBytes s data quantity).1 = writeAll s ((List.range quantity).map data) := by
  simp [writeBytes, h, writeAll, List.foldl_map]

/-- The inner address write of `requestFrom`: it leaves the buffer pointers, the
capacity, the read cursor and the callbacks alone, ends with the write cursor
reset, makes one `twi_writeTo` call with stop flag 0, and with an external
buffer it clears the driver target before that call and sets it to
`(txBuffer, X_BUFFER_LENGTH)` after it. -/
theorem requestFromInner_frame (s : State) (address iaddress isize wret : Nat) :
    ∃ m e len payload, requestFromInner s address iaddress isize wret =
      { s with mem := m, txAddress := address, txBufferIndex := 0, txBufferLength := 0,
               transmitting := 0, write_error := e,
               twiUserBuffer :=
                 if s.bUserBuffer = true then (s.txBuffer, s.X_BUFFER_LENGTH)
                 else s.twiUserBuffer,
               trace := s.trace ++
                 ((if s.bUserBuffer = true then [Event.twi_setUserBuffer 0 0] else []) ++
                  [Event.twi_writeTo address s.txBuffer len 1 0 payload] ++
                  (if s.bUserBuffer = true
                   then [Event.twi_setUserBuffer s.txBuffer s.X_BUFFER_LENGTH] else [])) } := by
  have key : ∀ (s2 : State) (data : Nat → Nat) (n : Nat), s2.transmitting ≠ 0 →
      ∃ m e len payload,
        (if (endTransmission (writeBytes s2 data n).1 0 wret).1.bUserBuffer = true then
          twi_setUserBuffer (endTransmission (writeBytes s2 data n).1 0 wret).1
            (endTransmission (writeBytes s2 data n).1 0 wret).1.txBuffer
            (endTransmission (writeBytes s2 data n).1 0 wret).1.X_BUFFER_LENGTH
         else (endTransmission (writeBytes s2 data n).1 0 wret).1) =
        { s2 with mem := m, txBufferIndex := 0, txBufferLength := 0,
                  transmitting := 0, write_error := e,
                  twiUserBuffer :=
                    if s2.bUserBuffer = true then (s2.txBuffer, s2.X_BUFFER_LENGTH)
                    else s2.twiUserBuffer,
                  trace := s2.trace ++
                    ([Event.twi_writeTo s2.txAddress s2.txBuffer len 1 0 payload] ++
                     (if s2.bUserBuffer = true
                      then [Event.twi_setUserBuffer s2.txBuffer s2.X_BUFFER_LENGTH]
                      else [])) } := by
    intro s2 data n h
    obtain ⟨m, i, l, e, hm⟩ := writeAll_frame ((List.range n).map data) s2 h
    rw [writeBytes_eq _ _ _ h, hm]
    simp only [endTransmission, twi_setUserBuffer]
    refine ⟨m, e, l, Mem.load m s2.txBuffer l, ?_⟩
    cases hb : s2.bUserBuffer <;> simp
  unfold requestFromInner
  cases hb : s.bUserBuffer
  · obtain ⟨m, e, len, payload, h⟩ := key (beginTransmission s address) (ibuff iaddress)
      (if isize > 3 then 3 else isize) (by simp [beginTransmission])
    have hb1 : (beginTransmission s address).bUserBuffer = false := hb
    simp only [hb1, Bool.false_eq_true, if_false]
    simp only [hb1, Bool.false_eq_true, if_false] at h
    rw [h]
    exact ⟨m, e, len, payload, by simp [beginTransmission, hb]⟩
  · obtain ⟨m, e, len, payload, h⟩ := key (twi_setUserBuffer (beginTransmission s address) 0 0)
      (ibuff iaddress) (if isize > 3 then 3 else isize)
      (by simp [beginTransmission, twi_setUserBuffer])
    have hb1 : (beginTransmission s address).bUserBuffer = true := hb
    have hb2 : (twi_setUserBuffer (beginTransmission s address) 0 0).bUserBuffer = true := hb
    simp only [hb1, if_true]
    simp only [hb2, if_true] at h
    rw [h]
    exact ⟨m, e, len, payload, by simp [beginTransmission, twi_setUserBuffer, hb]⟩

/-! ## The read cursor -/

theorem readTimes_succ (k : Nat) (s : State) :
    readTimes (k + 1) s = readTimes k (read s).1 := rfl

/-- As long as unread bytes remain, `k` calls of `read()` move the read index
by `k` and change nothing else. -/
theorem readTimes_eq (k : Nat) (s : State) (hk : s.rxBufferIndex + k ≤ s.rxBufferLength)
    (hlen : s.rxBufferLength < 256) :
    readTimes k s = { s with rxBufferIndex := s.rxBufferIndex + k } := by
  induction k generalizing s with
  | zero => rfl
  | succ k ih =>
    have hlt : s.rxBufferIndex < s.rxBufferLength := by omega
    have hmod : (s.rxBufferIndex + 1) % 256 = s.rxBufferIndex + 1 := by
      apply Nat.mod_eq_of_lt; omega
    have hr : (read s).1 = { s with rxBufferIndex := s.rxBufferIndex + 1 } := by
      simp [read, hlt, hmod]
    have hrec := ih (read s).1 (by rw [hr]; simp only; omega) (by rw [hr]; exact hlen)
    rw [readTimes_succ, hrec, hr]
    simp only [Nat.add_assoc, Nat.add_comm 1 k]

/-- With the read cursor drained, `read()` returns -1 and changes nothing, however
often it is called. -/
theorem readTimes_drained (j : Nat) (s : State) (h : ¬ s.rxBufferIndex < s.rxBufferLength) :
    readTimes j s = s ∧ read (readTimes j s) = (s, -1) := by
  have hr : read s = (s, -1) := by simp [read, h]
  induction j with
  | zero => exact ⟨rfl, hr⟩
  | succ j ih =>
    rw [readTimes_succ, hr]
    exact ih

/-! ## The copy loop of the data-received upcall -/

/-- For a count that fits a `uint8_t` counter the copy loop ends, with
`inBytes[i..n)` stored at `rxBuffer[i..n)` and nothing else changed. -/
theorem rxCopy_spec (inBytes : Nat → Nat) (n rxBuffer : Nat) (hn : n ≤ 255) :
    ∀ (fuel i : Nat) (m : Mem), i ≤ n → n - i < fuel →
      ∃ m', rxCopy inBytes (n : Int) rxBuffer fuel i m = some m' ∧
        (∀ k, i ≤ k → k < n → m' (rxBuffer + k) = inBytes k) ∧
        (∀ x, (x < rxBuffer + i ∨ rxBuffer + n ≤ x) → m' x = m x) := by
  intro fuel
  induction fuel with
  | zero => intro i m _ h; omega
  | succ fuel ih =>
    intro i m hi hf
    by_cases hlt : i < n
    · have hc : ((i : Int) < (n : Int)) := by exact_mod_cast hlt
      have hmod : (i + 1) % 256 = i + 1 := by apply Nat.mod_eq_of_lt; omega
      obtain ⟨m', h1, h2, h3⟩ := ih (i + 1) (m.store (rxBuffer + i) (inBytes i)) (by omega)
        (by omega)
      refine ⟨m', ?_, ?_, ?_⟩
      · simp only [rxCopy, hc, if_true, hmod]
        exact h1
      · intro k hk1 hk2
        by_cases hki : k = i
        · subst hki
          rw [h3 (rxBuffer + k) (Or.inl (by omega))]
          simp [Mem.store]
        · exact h2 k (by omega) hk2
      · intro x hx
        rw [h3 x (by omega)]
        have : x ≠ rxBuffer + i := by omega
        simp [Mem.store, this]
    · have hc : ¬ ((i : Int) < (n : Int)) := by exact_mod_cast hlt
      refine ⟨m, ?_, ?_, ?_⟩
      · simp only [rxCopy, hc, if_false]
      · intro k hk1 hk2; omega
      · intro x _; rfl

/-! ## The invariant of the write cursor -/

theorem write_txInv (s : State) (b : Nat) (h : TxInv s) : TxInv (write s b).1 := by
  unfold write
  split
  · split
    · exact h
    · exact ⟨rfl, h.2⟩
  · exact h

theorem writeAll_txInv (bs : List Nat) (s : State) (h : TxInv s) : TxInv (writeAll s bs) := by
  induction bs generalizing s with
  | nil => exact h
  | cons b bs ih => exact ih _ (write_txInv s b h)

theorem writeBytes_txInv (s : State) (data : Nat → Nat) (quantity : Nat) (h : TxInv s) :
    TxInv (writeBytes s data quantity).1 := by
  by_cases ht : s.transmitting ≠ 0
  · rw [writeBytes_eq _ _ _ ht]
    exact writeAll_txInv _ _ h
  · simp only [writeBytes, ht, if_false]
    exact h

/-- What `setUserBuffer` does, field by field. -/
theorem setUserBuffer_eq (P : Platform) (s : State) (uBuffer uLength : Nat) (z : Bool) :
    setUserBuffer P s uBuffer uLength z =
      if uBuffer ≠ 0 ∧ uLength ≠ 0 then
        { s with bUserBuffer := true, X_BUFFER_LENGTH := uLength, rxBuffer := uBuffer,
                 txBuffer := uBuffer,
                 twiUserBuffer := if z then (uBuffer, uLength) else (0, 0),
                 trace := s.trace ++
                   [if z then Event.twi_setUserBuffer uBuffer uLength
                    else Event.twi_setUserBuffer 0 0] }
      else
        { s with bUserBuffer := false, X_BUFFER_LENGTH := P.BUFFER_LENGTH % 256,
                 rxBuffer := P.xBuffer, txBuffer := P.xBuffer,
                 twiUserBuffer := (0, 0),
                 trace := s.trace ++ [Event.twi_setUserBuffer 0 0] } := by
  unfold setUserBuffer
  by_cases hc : uBuffer ≠ 0 ∧ uLength ≠ 0
  · rw [if_pos hc, if_pos hc]
    cases z <;> simp [twi_setUserBuffer]
  · rw [if_neg hc, if_neg hc]
    simp [twi_setUserBuffer]

theorem setUserBuffer_txInv (P : Platform) (s : State) (uBuffer uLength : Nat) (z : Bool)
    (hu : uLength < 256) (h : TxInv s) : TxInv (setUserBuffer P s uBuffer uLength z) := by
  have hmod : P.BUFFER_LENGTH % 256 < 256 := Nat.mod_lt _ (by decide)
  rw [setUserBuffer_eq]
  split
  · exact ⟨h.1, hu⟩
  · exact ⟨h.1, hmod⟩

theorem requestFrom_txInv (s : State) (address quantity iaddress isize sendStop wret : Nat)
    (rd : ReadReply) (h : TxInv s) :
    TxInv (requestFrom s address quantity iaddress isize sendStop wret rd).1 := by
  unfold requestFrom
  by_cases hi : isize > 0
  · obtain ⟨m, e, len, payload, hm⟩ := requestFromInner_frame s address iaddress isize wret
    simp only [hi, if_true, hm, twi_readFrom]
    exact ⟨rfl, h.2⟩
  · simp only [hi, if_false, twi_readFrom]
    exact h

theorem onReceiveService_txInv (s t : State) (inBytes : Nat → Nat) (numBytes : Int)
    (hstep : onReceiveService s inBytes numBytes = some t) (h : TxInv s) : TxInv t := by
  unfold onReceiveService at hstep
  split at hstep
  · cases hstep; exact h
  · split at hstep
    · cases hstep; exact h
    · split at hstep
      · cases hstep
      · cases hstep; exact h

/-- Every reachable state has the two halves of the write cursor equal and a
capacity that fits a `uint8_t`. -/
theorem reachable_txInv (P : Platform) (s : State) (h : Reachable P s) : TxInv s := by
  induction h with
  | init mem => exact ⟨rfl, Nat.mod_lt _ (by decide)⟩
  | begin _ ih => exact ⟨rfl, ih.2⟩
  | beginAddress _ _ ih => exact ⟨rfl, ih.2⟩
  | end_ _ ih => exact ih
  | setUserBuffer uBuffer uLength z hu _ ih => exact setUserBuffer_txInv P _ _ _ _ hu ih
  | setClock _ _ ih => exact ih
  | setWireTimeout _ _ _ ih => exact ih
  | getWireTimeoutFlag _ _ ih => exact ih
  | clearWireTimeoutFlag _ ih => exact ih
  | requestFrom a q ia isz st w rd _ ih => exact requestFrom_txInv _ _ _ _ _ _ _ _ ih
  | beginTransmission _ _ ih => exact ⟨rfl, ih.2⟩
  | endTransmission _ _ _ ih => exact ⟨rfl, ih.2⟩
  | write b _ ih => exact write_txInv _ b ih
  | writeBytes d q _ ih => exact writeBytes_txInv _ d q ih
  | writeZeroCopy q _ ih =>
    unfold writeZeroCopy
    split
    · split
      · exact ih
      · exact ⟨rfl, ih.2⟩
    · exact ih
  | read _ ih =>
    unfold read
    split
    · exact ih
    · exact ih
  | peek _ ih =>
    unfold peek
    split
    · exact ih
    · exact ih
  | flush _ ih => exact ih
  | onReceiveService inBytes n _ hstep ih => exact onReceiveService_txInv _ _ inBytes n hstep ih
  | onRequestService _ ih =>
    unfold onRequestService
    split
    · exact ih
    · exact ⟨rfl, ih.2⟩
  | onReceive _ _ ih => exact ih
  | onRequest _ _ ih => exact ih

/-! ## The master read path -/

/-- What `requestFrom` returns and where it leaves the read cursor, the buffer
and the trace. -/
theorem requestFrom_result (s : State) (address quantity iaddress isize sendStop wret : Nat)
    (rd : ReadReply) :
    (requestFrom s address quantity iaddress isize sendStop wret rd).2 = rd.count % 256 ∧
    (requestFrom s address quantity iaddress isize sendStop wret rd).1.rxBufferIndex = 0 ∧
    (requestFrom s address quantity iaddress isize sendStop wret rd).1.rxBufferLength
      = rd.count % 256 ∧
    (requestFrom s address quantity iaddress isize sendStop wret rd).1.rxBuffer = s.rxBuffer ∧
    (requestFrom s address quantity iaddress isize sendStop wret rd).1.X_BUFFER_LENGTH
      = s.X_BUFFER_LENGTH ∧
    (∃ m, (requestFrom s address quantity iaddress isize sendStop wret rd).1.mem
      = Mem.storeList m s.rxBuffer rd.data) ∧
    (∃ inner, (requestFrom s address quantity iaddress isize sendStop wret rd).1.trace
      = s.trace ++ inner ++
          [Event.twi_readFrom address s.rxBuffer (min quantity s.X_BUFFER_LENGTH) sendStop] ∧
      (isize = 0 → inner = []) ∧
      ∀ e ∈ inner, ∀ a b q st, e ≠ Event.twi_readFrom a b q st) := by
  have hmin : (if quantity > s.X_BUFFER_LENGTH then s.X_BUFFER_LENGTH else quantity)
      = min quantity s.X_BUFFER_LENGTH := by
    split <;> omega
  unfold requestFrom
  by_cases hi : isize > 0
  · obtain ⟨m, e, len, payload, hm⟩ := requestFromInner_frame s address iaddress isize wret
    simp only [hi, if_true, hm, twi_readFrom, hmin]
    refine ⟨by trivial, by trivial, by trivial, by trivial, by trivial, ⟨m, rfl⟩,
      ⟨_, by rw [List.append_assoc], by omega, ?_⟩⟩
    intro ev hev a b q st hEq
    subst hEq
    cases hb : s.bUserBuffer <;> simp [hb] at hev
  · simp only [hi, if_false, twi_readFrom, hmin]
    exact ⟨by trivial, by trivial, by trivial, by trivial, by trivial, ⟨s.mem, rfl⟩,
      ⟨[], by simp, fun _ => rfl, by simp⟩⟩

/-- With the read cursor at `(0, len)`, the `(k+1)`-th `read()` returns
`rxBuffer[k]` and lowers `available()` from `len - k` by one. -/
theorem read_nth (t : State) (k : Nat) (h0 : t.rxBufferIndex = 0) (hk : k < t.rxBufferLength)
    (hlen : t.rxBufferLength < 256) :
    (read (readTimes k t)).2 = (t.mem (t.rxBuffer + k) : Int) ∧
    available (readTimes k t) = (t.rxBufferLength : Int) - k ∧
    available (read (readTimes k t)).1 = available (readTimes k t) - 1 := by
  have hmod : (k + 1) % 256 = k + 1 := by apply Nat.mod_eq_of_lt; omega
  rw [readTimes_eq k t (by omega) hlen]
  simp only [read, available, h0, Nat.zero_add, hk, if_true, hmod]
  refine ⟨by trivial, by trivial, ?_⟩
  push_cast
  ring

/-! ## Runs of calls and reachability -/

/-- A run of calls in which every `setUserBuffer` length is a `uint8_t` reaches
only reachable states. -/
theorem reachableBy_reachable (P : Platform) (ok : State → Call → Prop)
    (hok : ∀ s u l z, ok s (Call.setUserBuffer u l z) → l < 256)
    (s : State) (h : ReachableBy P ok s) : Reachable P s := by
  induction h with
  | init mem => exact Reachable.init mem
  | step c _ hc hrun ih =>
    cases c with
    | setUserBuffer u l z =>
      simp only [runCall, Option.some.injEq] at hrun
      subst hrun
      exact Reachable.setUserBuffer u l z (hok _ u l z hc) ih
    | onReceiveService inBytes n =>
      simp only [runCall] at hrun
      exact Reachable.onReceiveService inBytes n ih hrun
    | begin => simp only [runCall, Option.some.injEq] at hrun; subst hrun; exact Reachable.begin ih
    | beginAddress a =>
      simp only [runCall, Option.some.injEq] at hrun; subst hrun
      exact Reachable.beginAddress a ih
    | end_ => simp only [runCall, Option.some.injEq] at hrun; subst hrun; exact Reachable.end_ ih
    | setClock c =>
      simp only [runCall, Option.some.injEq] at hrun; subst hrun; exact Reachable.setClock c ih
    | setWireTimeout a b =>
      simp only [runCall, Option.some.injEq] at hrun; subst hrun
      exact Reachable.setWireTimeout a b ih
    | getWireTimeoutFlag f =>
      simp only [runCall, Option.some.injEq] at hrun; subst hrun
      exact Reachable.getWireTimeoutFlag f ih
    | clearWireTimeoutFlag =>
      simp only [runCall, Option.some.injEq] at hrun; subst hrun
      exact Reachable.clearWireTimeoutFlag ih
    | requestFrom a q ia isz st w rd =>
      simp only [runCall, Option.some.injEq] at hrun; subst hrun
      exact Reachable.requestFrom a q ia isz st w rd ih
    | beginTransmission a =>
      simp only [runCall, Option.some.injEq] at hrun; subst hrun
      exact Reachable.beginTransmission a ih
    | endTransmission a b =>
      simp only [runCall, Option.some.injEq] at hrun; subst hrun
      exact Reachable.endTransmission a b ih
    | write b => simp only [runCall, Option.some.injEq] at hrun; subst hrun; exact Reachable.write b ih
    | writeBytes d q =>
      simp only [runCall, Option.some.injEq] at hrun; subst hrun
      exact Reachable.writeBytes d q ih
    | writeZeroCopy q =>
      simp only [runCall, Option.some.injEq] at hrun; subst hrun
      exact Reachable.writeZeroCopy q ih
    | read => simp only [runCall, Option.some.injEq] at hrun; subst hrun; exact Reachable.read ih
    | peek => simp only [runCall, Option.some.injEq] at hrun; subst hrun; exact Reachable.peek ih
    | flush => simp only [runCall, Option.some.injEq] at hrun; subst hrun; exact Reachable.flush ih
    | onRequestService =>
      simp only [runCall, Option.some.injEq] at hrun; subst hrun
      exact Reachable.onRequestService ih
    | onReceive f =>
      simp only [runCall, Option.some.injEq] at hrun; subst hrun; exact Reachable.onReceive f ih
    | onRequest f =>
      simp only [runCall, Option.some.injEq] at hrun; subst hrun; exact Reachable.onRequest f ih

/-! ## The bulk write in closed form -/

theorem writeAll_append (s : State) (as bs : List Nat) :
    writeAll s (as ++ bs) = writeAll (writeAll s as) bs := by
  simp [writeAll, List.foldl_append]

/-- With the buffer full every `write` of a run only raises the write-error
flag. -/
theorem writeAll_full (bs : List Nat) (s : State) (h : s.transmitting ≠ 0)
    (hfull : s.txBufferLength ≥ s.X_BUFFER_LENGTH) :
    writeAll s bs = if bs = [] then s else setWriteError s := by
  induction bs generalizing s with
  | nil => rfl
  | cons b bs ih =>
    have hw : (write s b).1 = setWriteError s := by simp [write, h, hfull]
    rw [writeAll_cons, hw, ih (setWriteError s) h hfull]
    by_cases hb : bs = []
    · simp [hb]
    · simp [hb, setWriteError]

/-- A run of `write` calls in master-transmitting mode, in closed form: the
bytes that fit are stored at the cursor in order, the cursor advances by their
number, and the write-error flag is raised when some byte did not fit. -/
theorem writeAll_closed (bs : List Nat) (s : State) (ht : s.transmitting ≠ 0)
    (hinv : TxInv s) :
    writeAll s bs =
      { s with mem := s.mem.storeList (s.txBuffer + s.txBufferIndex)
                        (bs.take (s.X_BUFFER_LENGTH - s.txBufferLength))
               txBufferIndex :=
                 s.txBufferIndex + min bs.length (s.X_BUFFER_LENGTH - s.txBufferLength)
               txBufferLength :=
                 s.txBufferLength + min bs.length (s.X_BUFFER_LENGTH - s.txBufferLength)
               write_error :=
                 if bs.length > s.X_BUFFER_LENGTH - s.txBufferLength then 1
                 else s.write_error } := by
  obtain ⟨hidx, hcap⟩ := hinv
  by_cases hroom : s.txBufferLength < s.X_BUFFER_LENGTH
  · have hsplit : writeAll s bs =
        writeAll (writeAll s (bs.take (s.X_BUFFER_LENGTH - s.txBufferLength)))
          (bs.drop (s.X_BUFFER_LENGTH - s.txBufferLength)) := by
      rw [← writeAll_append, List.take_append_drop]
    have hlen : (bs.take (s.X_BUFFER_LENGTH - s.txBufferLength)).length
        = min bs.length (s.X_BUFFER_LENGTH - s.txBufferLength) := by
      rw [List.length_take, Nat.min_comm]
    have hfit := writeAll_fits (bs.take (s.X_BUFFER_LENGTH - s.txBufferLength)) s ht hidx
      (by rw [hlen]; omega) hcap
    by_cases hlong : bs.length > s.X_BUFFER_LENGTH - s.txBufferLength
    · have hne : bs.drop (s.X_BUFFER_LENGTH - s.txBufferLength) ≠ [] := by
        intro h0
        have := List.drop_eq_nil_iff.mp h0
        omega
      have hrest := writeAll_full (bs.drop (s.X_BUFFER_LENGTH - s.txBufferLength))
        (writeAll s (bs.take (s.X_BUFFER_LENGTH - s.txBufferLength)))
        (by rw [hfit]; exact ht) (by rw [hfit, hlen]; simp only; omega)
      rw [hsplit, hrest, if_neg hne, hfit, hlen, if_pos hlong]
      rfl
    · have hnil : bs.drop (s.X_BUFFER_LENGTH - s.txBufferLength) = [] :=
        List.drop_eq_nil_iff.mpr (by omega)
      have hrest : writeAll (writeAll s (bs.take (s.X_BUFFER_LENGTH - s.txBufferLength))) []
          = writeAll s (bs.take (s.X_BUFFER_LENGTH - s.txBufferLength)) := rfl
      rw [hsplit, hnil, hrest, hfit, hlen, if_neg hlong]
  · have hk : s.X_BUFFER_LENGTH - s.txBufferLength = 0 := by omega
    rw [writeAll_full bs s ht (by omega), hk]
    by_cases hb : bs = []
    · simp [hb, Mem.storeList_nil]
    · have hpos : bs.length > 0 := List.length_pos.mpr hb
      simp [hb, hpos, Mem.storeList_nil, setWriteError]

/-! ## What the write calls leave alone -/

theorem write_keeps (s : State) (b : Nat) :
    (write s b).1.rxBufferIndex = s.rxBufferIndex ∧
    (write s b).1.rxBufferLength = s.rxBufferLength ∧
    (write s b).1.X_BUFFER_LENGTH = s.X_BUFFER_LENGTH ∧
    (write s b).1.rxBuffer = s.rxBuffer ∧
    (write s b).1.txBuffer = s.txBuffer := by
  unfold write
  split
  · split <;> exact ⟨rfl, rfl, rfl, rfl, rfl⟩
  · exact ⟨rfl, rfl, rfl, rfl, rfl⟩

theorem writeAll_keeps (bs : List Nat) (s : State) :
    (writeAll s bs).rxBufferIndex = s.rxBufferIndex ∧
    (writeAll s bs).rxBufferLength = s.rxBufferLength ∧
    (writeAll s bs).X_BUFFER_LENGTH = s.X_BUFFER_LENGTH ∧
    (writeAll s bs).rxBuffer = s.rxBuffer ∧
    (writeAll s bs).txBuffer = s.txBuffer := by
  induction bs generalizing s with
  | nil => exact ⟨rfl, rfl, rfl, rfl, rfl⟩
  | cons b bs ih =>
    obtain ⟨a1, a2, a3, a4, a5⟩ := write_keeps s b
    obtain ⟨b1, b2, b3, b4, b5⟩ := ih (write s b).1
    rw [writeAll_cons]
    exact ⟨b1.trans a1, b2.trans a2, b3.trans a3, b4.trans a4, b5.trans a5⟩

theorem writeBytes_keeps (s : State) (data : Nat → Nat) (quantity : Nat) :
    (writeBytes s data quantity).1.rxBufferIndex = s.rxBufferIndex ∧
    (writeBytes s data quantity).1.rxBufferLength = s.rxBufferLength ∧
    (writeBytes s data quantity).1.X_BUFFER_LENGTH = s.X_BUFFER_LENGTH ∧
    (writeBytes s data quantity).1.rxBuffer = s.rxBuffer ∧
    (writeBytes s data quantity).1.txBuffer = s.txBuffer := by
  by_cases ht : s.transmitting ≠ 0
  · rw [writeBytes_eq _ _ _ ht]
    exact writeAll_keeps _ s
  · simp only [writeBytes, ht, if_false]
    exact ⟨rfl, rfl, rfl, rfl, rfl⟩

theorem writeZeroCopy_keeps (s : State) (quantity : Nat) :
    (writeZeroCopy s quantity).1.rxBufferIndex = s.rxBufferIndex ∧
    (writeZeroCopy s quantity).1.rxBufferLength = s.rxBufferLength ∧
    (writeZeroCopy s quantity).1.X_BUFFER_LENGTH = s.X_BUFFER_LENGTH ∧
    (writeZeroCopy s quantity).1.rxBuffer = s.rxBuffer ∧
    (writeZeroCopy s quantity).1.txBuffer = s.txBuffer := by
  unfold writeZeroCopy
  split
  · split <;> exact ⟨rfl, rfl, rfl, rfl, rfl⟩
  · exact ⟨rfl, rfl, rfl, rfl, rfl⟩

/-! ## The invariant of the read cursor -/

theorem u8_of_int (n : Int) : (n % 256).toNat < 256 := by
  have h1 := Int.emod_lt_of_pos n (by decide : (0 : Int) < 256)
  have h2 := Int.emod_nonneg n (by decide : (256 : Int) ≠ 0)
  omega

theorem onReceiveService_rxInv (s t : State) (inBytes : Nat → Nat) (numBytes : Int)
    (hstep : onReceiveService s inBytes numBytes = some t) (h : RxInv s) : RxInv t := by
  unfold onReceiveService at hstep
  split at hstep
  · cases hstep; exact h
  · split at hstep
    · cases hstep; exact h
    · split at hstep
      · cases hstep
      · cases hstep
        exact ⟨Nat.zero_le _, u8_of_int numBytes, h.2.2⟩

/-- Every reachable state has the read index at most the read length, a read
length that fits a `uint8_t`, and one buffer for reading and writing. -/
theorem reachable_rxInv (P : Platform) (s : State) (h : Reachable P s) : RxInv s := by
  induction h with
  | init mem => exact ⟨Nat.le_refl _, Nat.zero_lt_succ _, rfl⟩
  | begin _ ih => exact ⟨Nat.le_refl _, Nat.zero_lt_succ _, ih.2.2⟩
  | beginAddress _ _ ih => exact ⟨Nat.le_refl _, Nat.zero_lt_succ _, ih.2.2⟩
  | end_ _ ih => exact ih
  | setUserBuffer uBuffer uLength z hu _ ih =>
    rw [setUserBuffer_eq]
    split
    · exact ⟨ih.1, ih.2.1, rfl⟩
    · exact ⟨ih.1, ih.2.1, rfl⟩
  | setClock _ _ ih => exact ih
  | setWireTimeout _ _ _ ih => exact ih
  | getWireTimeoutFlag _ _ ih => exact ih
  | clearWireTimeoutFlag _ ih => exact ih
  | @requestFrom s a q ia isz st w rd _ ih =>
    have hmod : rd.count % 256 < 256 := Nat.mod_lt _ (by decide)
    unfold requestFrom
    by_cases hi : isz > 0
    · obtain ⟨m, e, len, payload, hm⟩ := requestFromInner_frame s a ia isz w
      simp only [hi, if_true, hm, twi_readFrom]
      exact ⟨Nat.zero_le _, hmod, ih.2.2⟩
    · simp only [hi, if_false, twi_readFrom]
      exact ⟨Nat.zero_le _, hmod, ih.2.2⟩
  | beginTransmission _ _ ih => exact ih
  | endTransmission _ _ _ ih => exact ih
  | @write s b _ ih =>
    obtain ⟨a1, a2, _, a4, a5⟩ := write_keeps s b
    unfold RxInv
    rw [a1, a2, a4, a5]
    exact ih
  | @writeBytes s d q _ ih =>
    obtain ⟨a1, a2, _, a4, a5⟩ := writeBytes_keeps s d q
    unfold RxInv
    rw [a1, a2, a4, a5]
    exact ih
  | @writeZeroCopy s q _ ih =>
    obtain ⟨a1, a2, _, a4, a5⟩ := writeZeroCopy_keeps s q
    unfold RxInv
    rw [a1, a2, a4, a5]
    exact ih
  | @read s _ ih =>
    unfold read
    split
    · next hlt =>
      have h1 : (s.rxBufferIndex + 1) % 256 ≤ s.rxBufferIndex + 1 := Nat.mod_le _ _
      exact ⟨by show (s.rxBufferIndex + 1) % 256 ≤ s.rxBufferLength; omega, ih.2.1, ih.2.2⟩
    · exact ih
  | peek _ ih =>
    unfold peek
    split
    · exact ih
    · exact ih
  | flush _ ih => exact ih
  | onReceiveService inBytes n _ hstep ih => exact onReceiveService_rxInv _ _ inBytes n hstep ih
  | onRequestService _ ih =>
    unfold onRequestService
    split
    · exact ih
    · exact ih
  | onReceive _ _ ih => exact ih
  | onRequest _ _ ih => exact ih

/-! ## The cursors within the capacity -/

theorem write_txLength_le (s : State) (b : Nat) (hinv : TxInv s)
    (hb : s.txBufferLength ≤ s.X_BUFFER_LENGTH) :
    (write s b).1.txBufferLength ≤ (write s b).1.X_BUFFER_LENGTH := by
  unfold write
  split
  · split
    · exact hb
    · next hroom =>
      have h1 : (s.txBufferIndex + 1) % 256 ≤ s.txBufferIndex + 1 := Nat.mod_le _ _
      have h2 := hinv.1
      show (s.txBufferIndex + 1) % 256 ≤ s.X_BUFFER_LENGTH
      omega
  · exact hb

theorem writeAll_txLength_le (bs : List Nat) (s : State) (hinv : TxInv s)
    (hb : s.txBufferLength ≤ s.X_BUFFER_LENGTH) :
    (writeAll s bs).txBufferLength ≤ (writeAll s bs).X_BUFFER_LENGTH := by
  induction bs generalizing s with
  | nil => exact hb
  | cons b bs ih => exact ih _ (write_txInv s b hinv) (write_txLength_le s b hinv hb)

theorem writeBytes_txLength_le (s : State) (data : Nat → Nat) (quantity : Nat) (hinv : TxInv s)
    (hb : s.txBufferLength ≤ s.X_BUFFER_LENGTH) :
    (writeBytes s data quantity).1.txBufferLength ≤
      (writeBytes s data quantity).1.X_BUFFER_LENGTH := by
  by_cases ht : s.transmitting ≠ 0
  · rw [writeBytes_eq _ _ _ ht]
    exact writeAll_txLength_le _ s hinv hb
  · simp only [writeBytes, ht, if_false]
    exact hb

theorem setUserBuffer_keeps (P : Platform) (s : State) (u l : Nat) (z : Bool) :
    (setUserBuffer P s u l z).rxBufferIndex = s.rxBufferIndex ∧
    (setUserBuffer P s u l z).rxBufferLength = s.rxBufferLength ∧
    (setUserBuffer P s u l z).txBufferIndex = s.txBufferIndex ∧
    (setUserBuffer P s u l z).txBufferLength = s.txBufferLength := by
  rw [setUserBuffer_eq]
  split <;> exact ⟨rfl, rfl, rfl, rfl⟩

/-- Under the discipline of `TxDiscipline` the write length never exceeds the
capacity. -/
theorem txRun_le (P : Platform) (s : State) (h : ReachableBy P (TxDiscipline P) s) :
    s.txBufferLength ≤ s.X_BUFFER_LENGTH := by
  induction h with
  | init mem => exact Nat.zero_le _
  | @step s t c hs hc hrun ih =>
    have hinv := reachable_txInv P s (reachableBy_reachable P _ (fun _ _ _ _ h => h.1) s hs)
    cases c
    case setUserBuffer u l z =>
      simp only [runCall, Option.some.injEq] at hrun
      subst hrun
      rw [(setUserBuffer_keeps P s u l z).2.2.2]
      exact hc.2
    case requestFrom a q ia isz st w rd =>
      simp only [runCall, Option.some.injEq] at hrun
      subst hrun
      unfold requestFrom
      by_cases hi : isz > 0
      · obtain ⟨m, e, len, payload, hm⟩ := requestFromInner_frame s a ia isz w
        simp only [hi, if_true, hm, twi_readFrom]
        exact Nat.zero_le _
      · simp only [hi, if_false, twi_readFrom]
        exact ih
    case write b =>
      simp only [runCall, Option.some.injEq] at hrun
      subst hrun
      exact write_txLength_le s b hinv ih
    case writeBytes d q =>
      simp only [runCall, Option.some.injEq] at hrun
      subst hrun
      exact writeBytes_txLength_le s d q hinv ih
    case writeZeroCopy q =>
      simp only [runCall, Option.some.injEq] at hrun
      subst hrun
      unfold writeZeroCopy
      split
      · next ht =>
        split
        · exact ih
        · have hq : q ≤ s.X_BUFFER_LENGTH := hc ht
          have h1 : q % 256 ≤ q := Nat.mod_le _ _
          show q % 256 ≤ s.X_BUFFER_LENGTH
          omega
      · exact ih
    case read =>
      simp only [runCall, Option.some.injEq] at hrun
      subst hrun
      unfold read
      split <;> exact ih
    case peek =>
      simp only [runCall, Option.some.injEq] at hrun
      subst hrun
      unfold peek
      split <;> exact ih
    case onReceiveService inBytes n =>
      simp only [runCall] at hrun
      unfold onReceiveService at hrun
      split at hrun
      · cases hrun; exact ih
      · split at hrun
        · cases hrun; exact ih
        · split at hrun
          · cases hrun
          · cases hrun; exact ih
    case onRequestService =>
      simp only [runCall, Option.some.injEq] at hrun
      subst hrun
      unfold onRequestService
      split
      · exact ih
      · exact Nat.zero_le _
    all_goals
      simp only [runCall, Option.some.injEq] at hrun
      subst hrun
      first
        | exact ih
        | exact Nat.zero_le _

/-- Under the discipline of `RxDiscipline` the read length never exceeds the
capacity. -/
theorem rxRun_le (P : Platform) (s : State) (h : ReachableBy P (RxDiscipline P) s) :
    s.rxBufferLength ≤ s.X_BUFFER_LENGTH := by
  induction h with
  | init mem => exact Nat.zero_le _
  | @step s t c hs hc hrun ih =>
    have hinv := reachable_txInv P s (reachableBy_reachable P _ (fun _ _ _ _ h => h.1) s hs)
    cases c
    case setUserBuffer u l z =>
      simp only [runCall, Option.some.injEq] at hrun
      subst hrun
      rw [(setUserBuffer_keeps P s u l z).2.1]
      exact hc.2
    case requestFrom a q ia isz st w rd =>
      simp only [runCall, Option.some.injEq] at hrun
      subst hrun
      obtain ⟨_, _, hl, _, hcapEq, _, _⟩ := requestFrom_result s a q ia isz st w rd
      have hc' : rd.count ≤ min q s.X_BUFFER_LENGTH := hc
      have h1 : rd.count % 256 ≤ rd.count := Nat.mod_le _ _
      have h3 : min q s.X_BUFFER_LENGTH ≤ s.X_BUFFER_LENGTH := Nat.min_le_right _ _
      rw [hl, hcapEq]
      omega
    case write b =>
      simp only [runCall, Option.some.injEq] at hrun
      subst hrun
      obtain ⟨_, a2, a3, _, _⟩ := write_keeps s b
      rw [a2, a3]
      exact ih
    case writeBytes d q =>
      simp only [runCall, Option.some.injEq] at hrun
      subst hrun
      obtain ⟨_, a2, a3, _, _⟩ := writeBytes_keeps s d q
      rw [a2, a3]
      exact ih
    case writeZeroCopy q =>
      simp only [runCall, Option.some.injEq] at hrun
      subst hrun
      obtain ⟨_, a2, a3, _, _⟩ := writeZeroCopy_keeps s q
      rw [a2, a3]
      exact ih
    case read =>
      simp only [runCall, Option.some.injEq] at hrun
      subst hrun
      unfold read
      split <;> exact ih
    case peek =>
      simp only [runCall, Option.some.injEq] at hrun
      subst hrun
      unfold peek
      split <;> exact ih
    case onReceiveService inBytes n =>
      simp only [runCall] at hrun
      have hn : 0 ≤ n ∧ n ≤ (s.X_BUFFER_LENGTH : Int) := hc
      have hcap := hinv.2
      unfold onReceiveService at hrun
      split at hrun
      · cases hrun; exact ih
      · split at hrun
        · cases hrun; exact ih
        · split at hrun
          · cases hrun
          · cases hrun
            show (n % 256).toNat ≤ s.X_BUFFER_LENGTH
            omega
    case onRequestService =>
      simp only [runCall, Option.some.injEq] at hrun
      subst hrun
      unfold onRequestService
      split <;> exact ih
    all_goals
      simp only [runCall, Option.some.injEq] at hrun
      subst hrun
      first
        | exact ih
        | exact Nat.zero_le _

/-! ## The claims -/

/-- C1: for every address `a`, stop flag `stop` and byte sequence `bs` no longer
than the active capacity, `beginTransmission(a)`, `write(b)` for each `b` of
`bs` in order, `endTransmission(stop)` makes exactly one driver call, the
`twi_writeTo` with address `a`, the active buffer, length `|bs|`, the stop
flag `stop` and payload `bs`; at that call `buffer[0..|bs|)` holds `bs` in
order. -/
theorem C1_write_sequence_transmitted (P : Platform) (s : State) (hs : Reachable P s)
    (a stop ret : Nat) (bs : List Nat) (hlen : bs.length ≤ s.X_BUFFER_LENGTH) :
    (endTransmission (writeAll (beginTransmission s a) bs) stop ret).1.trace =
      s.trace ++ [Event.twi_writeTo a s.txBuffer bs.length 1 stop bs] ∧
    Mem.load (writeAll (beginTransmission s a) bs).mem s.txBuffer bs.length = bs := by
  have hinv := reachable_txInv P s hs
  have hw := writeAll_fits bs (beginTransmission s a) (by simp [beginTransmission]) rfl
    (by simpa [beginTransmission] using hlen) hinv.2
  rw [hw]
  simp only [endTransmission, beginTransmission, Nat.zero_add, Nat.add_zero,
    Mem.load_storeList]
  trivial

/-- C1 at `begin(0x50)`, `write(0xAA)`, `write(0xBB)`, `end(true)` on the freshly
started program. -/
theorem C1_write_sequence_transmitted_witness :
    Reachable P0 s0 ∧ [0xAA, 0xBB].length ≤ s0.X_BUFFER_LENGTH ∧
    (endTransmission (writeAll (beginTransmission s0 0x50) [0xAA, 0xBB]) 1 0).1.trace =
      s0.trace ++ [Event.twi_writeTo 0x50 s0.txBuffer 2 1 1 [0xAA, 0xBB]] :=
  ⟨Reachable.init mem0, by decide,
   (C1_write_sequence_transmitted P0 s0 (Reachable.init mem0) 0x50 1 0 [0xAA, 0xBB]
      (by decide)).1⟩

/-- C2: when the driver read of a `requestFrom` call stores and returns `n`
bytes, `n` at most the clamped quantity, `requestFrom` returns `n`, the read
cursor is `(0, n)` and `available()` is `n`; for each `k < n` the `(k+1)`-th
`read()` returns `buffer[k]`, the `k`-th byte the driver stored, and lowers
`available()` from `n - k` by exactly 1; after `n` reads `available()` is 0 and
every further `read()` returns -1 and leaves the state unchanged. -/
theorem C2_requestFrom_then_read (P : Platform) (s : State) (hs : Reachable P s)
    (address quantity iaddress isize sendStop wret : Nat) (rd : ReadReply) (n : Nat)
    (hcount : rd.count = n) (hdata : rd.data.length = n)
    (hn : n ≤ min quantity s.X_BUFFER_LENGTH) :
    (requestFrom s address quantity iaddress isize sendStop wret rd).2 = n ∧
    (requestFrom s address quantity iaddress isize sendStop wret rd).1.rxBufferIndex = 0 ∧
    (requestFrom s address quantity iaddress isize sendStop wret rd).1.rxBufferLength = n ∧
    available (requestFrom s address quantity iaddress isize sendStop wret rd).1 = n ∧
    (∀ k, k < n →
      (read (readTimes k
        (requestFrom s address quantity iaddress isize sendStop wret rd).1)).2
        = (rd.data.getD k 0 : Int) ∧
      (read (readTimes k
        (requestFrom s address quantity iaddress isize sendStop wret rd).1)).2
        = ((requestFrom s address quantity iaddress isize sendStop wret rd).1.mem
            ((requestFrom s address quantity iaddress isize sendStop wret rd).1.rxBuffer + k)
            : Int) ∧
      available (readTimes k
        (requestFrom s address quantity iaddress isize sendStop wret rd).1) = (n : Int) - k ∧
      available (read (readTimes k
        (requestFrom s address quantity iaddress isize sendStop wret rd).1)).1
        = available (readTimes k
            (requestFrom s address quantity iaddress isize sendStop wret rd).1) - 1) ∧
    available (readTimes n
      (requestFrom s address quantity iaddress isize sendStop wret rd).1) = 0 ∧
    (∀ j, read (readTimes j (readTimes n
        (requestFrom s address quantity iaddress isize sendStop wret rd).1))
      = (readTimes n (requestFrom s address quantity iaddress isize sendStop wret rd).1, -1)) := by
  have hinv := reachable_txInv P s hs
  obtain ⟨h2, hidx, hl, hbuf, _, ⟨m, hmem⟩, _⟩ :=
    requestFrom_result s address quantity iaddress isize sendStop wret rd
  generalize requestFrom s address quantity iaddress isize sendStop wret rd = r at *
  have hn256 : n < 256 := by
    have := hinv.2
    omega
  have hmod : rd.count % 256 = n := by rw [hcount]; exact Nat.mod_eq_of_lt hn256
  rw [hmod] at h2 hl
  have hdone : readTimes n r.1 = { r.1 with rxBufferIndex := n } := by
    rw [readTimes_eq n r.1 (by omega) (by omega), hidx, Nat.zero_add]
  refine ⟨h2, hidx, hl, by simp [available, hidx, hl], ?_, ?_, ?_⟩
  · intro k hk
    obtain ⟨a1, a2, a3⟩ := read_nth r.1 k hidx (by omega) (by omega)
    refine ⟨?_, a1, by rw [a2, hl], a3⟩
    rw [a1, hmem, hbuf, Mem.storeList_at m s.rxBuffer rd.data k (by omega)]
  · rw [hdone]
    simp [available, hl]
  · intro j
    exact (readTimes_drained j (readTimes n r.1) (by rw [hdone]; simp [hl])).2

/-- C2 at a read of the two bytes 7, 9 out of four requested. -/
theorem C2_requestFrom_then_read_witness :
    Reachable P0 s0 ∧ 2 ≤ min 4 s0.X_BUFFER_LENGTH ∧
    (requestFrom s0 0x50 4 0 0 1 0 ⟨[7, 9], 2⟩).2 = 2 ∧
    available (requestFrom s0 0x50 4 0 0 1 0 ⟨[7, 9], 2⟩).1 = 2 :=
  ⟨Reachable.init mem0, by decide,
   (C2_requestFrom_then_read P0 s0 (Reachable.init mem0) 0x50 4 0 0 1 0 ⟨[7, 9], 2⟩ 2
      rfl rfl (by decide)).1,
   (C2_requestFrom_then_read P0 s0 (Reachable.init mem0) 0x50 4 0 0 1 0 ⟨[7, 9], 2⟩ 2
      rfl rfl (by decide)).2.2.2.1⟩

/-- C3: the code at the scenario of the claim. With capacity 32, an external
zero-copy buffer and `beginTransmission` done, `writeZeroCopy(40)` returns 40,
leaves the write-error flag clear and moves the write cursor to `(40, 40)`,
beyond the capacity: the guard looks at the length already buffered, not at the
quantity asked for. -/
theorem C3_writeZeroCopy_beyond_capacity :
    sExt.X_BUFFER_LENGTH = 32 ∧ sExt.bUserBuffer = true ∧
    (beginTransmission sExt 0x50).transmitting = 1 ∧
    (beginTransmission sExt 0x50).txBufferIndex = 0 ∧
    (beginTransmission sExt 0x50).txBufferLength = 0 ∧
    (beginTransmission sExt 0x50).write_error = 0 ∧
    (writeZeroCopy (beginTransmission sExt 0x50) 40).2 = 40 ∧
    (writeZeroCopy (beginTransmission sExt 0x50) 40).1.write_error = 0 ∧
    (writeZeroCopy (beginTransmission sExt 0x50) 40).1.txBufferIndex = 40 ∧
    (writeZeroCopy (beginTransmission sExt 0x50) 40).1.txBufferLength = 40 := by
  decide

/-- C4: the code at the scenario of the claim. `requestFrom(0x50, 4, 0x0010, 1,
true)` makes one `twi_writeTo` to 0x50 with stop flag 0 and length 1 and then
one `twi_readFrom(0x50, buffer, 4, 1)`, but the byte it transmits is
`ibuff[0] = (iaddress >> 16) & 0xff = 0x00`, not the least-significant byte
0x10; with `isize = 2` and `iaddress = 0xABCDEF` it transmits `[0xAB, 0xCD]`,
not `[0xCD, 0xEF]`. -/
theorem C4_internal_address_bytes :
    (∀ rd : ReadReply, (requestFrom s0 0x50 4 0x0010 1 1 0 rd).1.trace =
      [Event.twi_writeTo 0x50 P0.xBuffer 1 1 0 [0x00],
       Event.twi_readFrom 0x50 P0.xBuffer 4 1]) ∧
    (0x0010 >>> (8 * (1 - 1 - 0))) &&& 0xFF = 0x10 ∧
    (∀ rd : ReadReply, (requestFrom s0 0x50 4 0xABCDEF 2 1 0 rd).1.trace =
      [Event.twi_writeTo 0x50 P0.xBuffer 2 1 0 [0xAB, 0xCD],
       Event.twi_readFrom 0x50 P0.xBuffer 4 1]) := by
  refine ⟨fun rd => rfl, by decide, fun rd => rfl⟩

/-- C5: in master-transmitting mode, in every reachable state, `write(byte)`
with the write-cursor length equal to the capacity sets the write-error flag,
returns 0 and changes nothing else (buffer, cursor and mode stay, the byte is
dropped); with the length below the capacity it returns 1, stores the byte at
the cursor, advances index and length by 1 and changes nothing else, whatever
the write-error flag was. -/
theorem C5_write_byte (P : Platform) (s : State) (hs : Reachable P s) (b : Nat)
    (ht : s.transmitting ≠ 0) :
    (s.txBufferLength = s.X_BUFFER_LENGTH → write s b = ({ s with write_error := 1 }, 0)) ∧
    (s.txBufferLength < s.X_BUFFER_LENGTH →
      write s b = ({ s with mem := s.mem.store (s.txBuffer + s.txBufferIndex) b
                            txBufferIndex := s.txBufferIndex + 1
                            txBufferLength := s.txBufferLength + 1 }, 1)) := by
  have hinv := reachable_txInv P s hs
  constructor
  · intro hfull
    have hge : s.txBufferLength ≥ s.X_BUFFER_LENGTH := by omega
    simp [write, ht, hge, setWriteError]
  · intro hlt
    have hge : ¬ s.txBufferLength ≥ s.X_BUFFER_LENGTH := by omega
    have hmod : (s.txBufferIndex + 1) % 256 = s.txBufferLength + 1 := by
      rw [hinv.1]; apply Nat.mod_eq_of_lt; have := hinv.2; omega
    simp only [write, ht, hge, hmod, if_true, if_false, ne_eq, not_false_eq_true]
    rw [hinv.1]

/-- C5 on a one-byte external buffer: the first `write` is stored, the second
overflows. -/
theorem C5_write_byte_witness :
    Reachable P0 (beginTransmission (setUserBuffer P0 s0 0x200 1 false) 0x50) ∧
    (beginTransmission (setUserBuffer P0 s0 0x200 1 false) 0x50).transmitting ≠ 0 ∧
    (write (beginTransmission (setUserBuffer P0 s0 0x200 1 false) 0x50) 0xAA).2 = 1 ∧
    (write (write (beginTransmission (setUserBuffer P0 s0 0x200 1 false) 0x50) 0xAA).1 0xBB).2
      = 0 :=
  have h1 : Reachable P0 (beginTransmission (setUserBuffer P0 s0 0x200 1 false) 0x50) :=
    Reachable.beginTransmission 0x50
      (Reachable.setUserBuffer 0x200 1 false (by decide) (Reachable.init mem0))
  ⟨h1, by decide,
   congrArg Prod.snd ((C5_write_byte P0 _ h1 0xAA (by decide)).2 (by decide)),
   congrArg Prod.snd ((C5_write_byte P0 _ (Reachable.write 0xAA h1) 0xBB (by decide)).1
     (by decide))⟩

/-- C6: for every state and every quantity `q`, `requestFrom` makes exactly one
`twi_readFrom` call, the last call it makes, for exactly `min(q, capacity)`
bytes into the active buffer `rxBuffer`, where the capacity is
`X_BUFFER_LENGTH`; so never more than the capacity is requested, and when the
driver returns no more than was requested the returned count is at most the
capacity. -/
theorem C6_requestFrom_clamps (s : State) (address quantity iaddress isize sendStop wret : Nat)
    (rd : ReadReply) :
    (∃ inner, (requestFrom s address quantity iaddress isize sendStop wret rd).1.trace
        = s.trace ++ inner ++
          [Event.twi_readFrom address s.rxBuffer (min quantity s.X_BUFFER_LENGTH) sendStop] ∧
      ∀ e ∈ inner, ∀ a b q st, e ≠ Event.twi_readFrom a b q st) ∧
    min quantity s.X_BUFFER_LENGTH ≤ s.X_BUFFER_LENGTH ∧
    (rd.count ≤ min quantity s.X_BUFFER_LENGTH →
      (requestFrom s address quantity iaddress isize sendStop wret rd).2 ≤ s.X_BUFFER_LENGTH) := by
  obtain ⟨h2, _, _, _, _, _, ⟨inner, htr, _, hno⟩⟩ :=
    requestFrom_result s address quantity iaddress isize sendStop wret rd
  refine ⟨⟨inner, htr, hno⟩, Nat.min_le_right _ _, ?_⟩
  intro hc
  rw [h2]
  have h1 : rd.count % 256 ≤ rd.count := Nat.mod_le _ _
  have h3 : min quantity s.X_BUFFER_LENGTH ≤ s.X_BUFFER_LENGTH := Nat.min_le_right _ _
  omega

/-- C6 at a request of 40 bytes with the internal buffer of 32: 32 bytes are
requested and the count returned is at most 32. -/
theorem C6_requestFrom_clamps_witness :
    (32 : Nat) ≤ min 40 s0.X_BUFFER_LENGTH ∧ min 40 s0.X_BUFFER_LENGTH = 32 ∧
    (requestFrom s0 0x50 40 0 0 1 0 ⟨[], 32⟩).2 ≤ s0.X_BUFFER_LENGTH :=
  ⟨by decide, by decide,
   (C6_requestFrom_clamps s0 0x50 40 0 0 1 0 ⟨[], 32⟩).2.2 (by decide)⟩

/-- C7: in every state whose read cursor still has unread bytes
(`rxBufferIndex < rxBufferLength`), for every incoming `(inBytes, numBytes)`,
`onReceiveService` returns with the state exactly as it was: buffer contents
and read cursor unchanged, and no callback call added to the trace. -/
theorem C7_receive_dropped_when_unread (s : State) (inBytes : Nat → Nat) (numBytes : Int)
    (h : s.rxBufferIndex < s.rxBufferLength) :
    onReceiveService s inBytes numBytes = some s ∧
    ∀ t, onReceiveService s inBytes numBytes = some t →
      t.mem = s.mem ∧ t.rxBufferIndex = s.rxBufferIndex ∧
      t.rxBufferLength = s.rxBufferLength ∧ t.trace = s.trace := by
  have hs : onReceiveService s inBytes numBytes = some s := by
    simp [onReceiveService, h]
  refine ⟨hs, ?_⟩
  intro t ht
  rw [hs] at ht
  cases ht
  exact ⟨rfl, rfl, rfl, rfl⟩

/-- C7 with a callback registered and two unread bytes of a master read. -/
theorem C7_receive_dropped_when_unread_witness :
    (onReceive (requestFrom s0 0x50 2 0 0 1 0 ⟨[7, 9], 2⟩).1 0x1234).rxBufferIndex <
      (onReceive (requestFrom s0 0x50 2 0 0 1 0 ⟨[7, 9], 2⟩).1 0x1234).rxBufferLength ∧
    onReceiveService (onReceive (requestFrom s0 0x50 2 0 0 1 0 ⟨[7, 9], 2⟩).1 0x1234)
      (fun i => i + 1) 3
      = some (onReceive (requestFrom s0 0x50 2 0 0 1 0 ⟨[7, 9], 2⟩).1 0x1234) :=
  ⟨by decide,
   (C7_receive_dropped_when_unread _ (fun i => i + 1) 3 (by decide)).1⟩

/-- C8: in every reachable state with a receive callback registered and the
read cursor drained (`rxBufferIndex >= rxBufferLength`), for every incoming
`(inBytes, numBytes)` with `0 <= numBytes <= capacity`, `onReceiveService`
returns, having copied the bytes into `buffer[0..numBytes)` (and changed no
other byte), set the read cursor to `(0, numBytes)` and called the registered
callback exactly once, with argument `numBytes`; the `numBytes` calls of
`read()` that follow return the incoming bytes in order. -/
theorem C8_receive_delivers (P : Platform) (s : State) (hs : Reachable P s)
    (inBytes : Nat → Nat) (numBytes : Int) (hcb : s.user_onReceive ≠ 0)
    (hdrained : s.rxBufferIndex ≥ s.rxBufferLength) (h0 : 0 ≤ numBytes)
    (hcap : numBytes ≤ (s.X_BUFFER_LENGTH : Int)) :
    ∃ t, onReceiveService s inBytes numBytes = some t ∧
      t.rxBuffer = s.rxBuffer ∧
      (∀ k : Nat, (k : Int) < numBytes → t.mem (s.rxBuffer + k) = inBytes k) ∧
      (∀ x : Nat, (x < s.rxBuffer ∨ s.rxBuffer + numBytes.toNat ≤ x) → t.mem x = s.mem x) ∧
      t.rxBufferIndex = 0 ∧ (t.rxBufferLength : Int) = numBytes ∧
      t.trace = s.trace ++ [Event.user_onReceive s.user_onReceive numBytes] ∧
      (∀ k : Nat, (k : Int) < numBytes → (read (readTimes k t)).2 = (inBytes k : Int)) := by
  have hinv := reachable_txInv P s hs
  obtain ⟨n, rfl⟩ := Int.eq_ofNat_of_zero_le h0
  have hn : n ≤ s.X_BUFFER_LENGTH := by exact_mod_cast hcap
  have hn255 : n ≤ 255 := by have := hinv.2; omega
  obtain ⟨m', hm1, hm2, hm3⟩ :=
    rxCopy_spec inBytes n s.rxBuffer hn255 256 0 s.mem (by omega) (by omega)
  have hnot : ¬ s.rxBufferIndex < s.rxBufferLength := by omega
  have hlen : ((n : Int) % 256).toNat = n := by
    have h1 : ((n : Int) % 256) = ((n % 256 : Nat) : Int) := by norm_cast
    rw [h1, Int.toNat_ofNat]
    exact Nat.mod_eq_of_lt (by omega)
  have hrun : onReceiveService s inBytes (n : Int) =
      some { s with mem := m', rxBufferIndex := 0, rxBufferLength := n,
                    trace := s.trace ++ [Event.user_onReceive s.user_onReceive (n : Int)] } := by
    simp only [onReceiveService, hcb, hnot, hm1, hlen, if_false]
  refine ⟨_, hrun, rfl, ?_, ?_, rfl, rfl, rfl, ?_⟩
  · intro k hk
    exact hm2 k (by omega) (by exact_mod_cast hk)
  · intro x hx
    exact hm3 x (by simpa using hx)
  · intro k hk
    have hk' : k < n := by exact_mod_cast hk
    rw [(read_nth _ k rfl hk' (by show n < 256; omega)).1]
    exact congrArg Int.ofNat (hm2 k (by omega) hk')

/-- C8 at three incoming bytes 5, 6, 7 with the callback 0x1234 registered. -/
theorem C8_receive_delivers_witness :
    Reachable P0 (onReceive s0 0x1234) ∧ (onReceive s0 0x1234).user_onReceive ≠ 0 ∧
    (onReceive s0 0x1234).rxBufferIndex ≥ (onReceive s0 0x1234).rxBufferLength ∧
    (0 : Int) ≤ 3 ∧ (3 : Int) ≤ ((onReceive s0 0x1234).X_BUFFER_LENGTH : Int) ∧
    ∃ t, onReceiveService (onReceive s0 0x1234) (fun i => [5, 6, 7].getD i 0) 3 = some t ∧
      t.rxBufferIndex = 0 ∧ (t.rxBufferLength : Int) = 3 ∧
      t.trace = (onReceive s0 0x1234).trace ++ [Event.user_onReceive 0x1234 3] :=
  have h1 : Reachable P0 (onReceive s0 0x1234) := Reachable.onReceive 0x1234 (Reachable.init mem0)
  ⟨h1, by decide, by decide, by decide, by decide,
   (C8_receive_delivers P0 (onReceive s0 0x1234) h1 (fun i => [5, 6, 7].getD i 0) 3
      (by decide) (by decide) (by decide) (by decide)).imp
     (fun _ h => ⟨h.1, h.2.2.2.2.1, h.2.2.2.2.2.1, h.2.2.2.2.2.2.1⟩)⟩

/-- C9 fails: after a master read of the two bytes 7, 9, switching to the
external buffer `(0x200, 8)` and back to the internal buffer does not leave the
read cursor at `(0,0)`: it is still `(0, 2)`, `available()` is 2 after either
switch and `read()` returns the byte 7; and a write cursor at `(1, 1)` is not
reset either. -/
theorem C9_switch_keeps_cursors_counterexample :
    ¬ ((setUserBuffer P0 (setUserBuffer P0 (requestFrom s0 0x50 2 0 0 1 0 ⟨[7, 9], 2⟩).1
          0x200 8 false) 0 0 false).rxBufferIndex = 0 ∧
       (setUserBuffer P0 (setUserBuffer P0 (requestFrom s0 0x50 2 0 0 1 0 ⟨[7, 9], 2⟩).1
          0x200 8 false) 0 0 false).rxBufferLength = 0) ∧
    (setUserBuffer P0 (setUserBuffer P0 (requestFrom s0 0x50 2 0 0 1 0 ⟨[7, 9], 2⟩).1
        0x200 8 false) 0 0 false).rxBufferLength = 2 ∧
    available (setUserBuffer P0 (requestFrom s0 0x50 2 0 0 1 0 ⟨[7, 9], 2⟩).1
        0x200 8 false) ≠ 0 ∧
    available (setUserBuffer P0 (setUserBuffer P0 (requestFrom s0 0x50 2 0 0 1 0 ⟨[7, 9], 2⟩).1
        0x200 8 false) 0 0 false) ≠ 0 ∧
    (read (setUserBuffer P0 (setUserBuffer P0 (requestFrom s0 0x50 2 0 0 1 0 ⟨[7, 9], 2⟩).1
        0x200 8 false) 0 0 false)).2 = 7 ∧
    ¬ ((setUserBuffer P0 (setUserBuffer P0 (write (beginTransmission s0 0x50) 0xAA).1
          0x200 8 false) 0 0 false).txBufferIndex = 0 ∧
       (setUserBuffer P0 (setUserBuffer P0 (write (beginTransmission s0 0x50) 0xAA).1
          0x200 8 false) 0 0 false).txBufferLength = 0) := by
  decide

/-- C9 as amended: `setUserBuffer` never touches a cursor. For every state and
all arguments it leaves the read cursor and the write cursor exactly as they
were, so `available()` is unchanged; hence after switching to an external
buffer and back to the internal one both cursors are `(0,0)` exactly when they
were `(0,0)` before. -/
theorem C9_setUserBuffer_keeps_cursors (P : Platform) (s : State) (uBuffer uLength : Nat)
    (twi_zero_copy : Bool) :
    ((setUserBuffer P s uBuffer uLength twi_zero_copy).rxBufferIndex = s.rxBufferIndex ∧
     (setUserBuffer P s uBuffer uLength twi_zero_copy).rxBufferLength = s.rxBufferLength ∧
     (setUserBuffer P s uBuffer uLength twi_zero_copy).txBufferIndex = s.txBufferIndex ∧
     (setUserBuffer P s uBuffer uLength twi_zero_copy).txBufferLength = s.txBufferLength ∧
     available (setUserBuffer P s uBuffer uLength twi_zero_copy) = available s) ∧
    ((setUserBuffer P (setUserBuffer P s uBuffer uLength twi_zero_copy) 0 0 false).rxBufferIndex
        = s.rxBufferIndex ∧
     (setUserBuffer P (setUserBuffer P s uBuffer uLength twi_zero_copy) 0 0 false).rxBufferLength
        = s.rxBufferLength ∧
     (setUserBuffer P (setUserBuffer P s uBuffer uLength twi_zero_copy) 0 0 false).txBufferIndex
        = s.txBufferIndex ∧
     (setUserBuffer P (setUserBuffer P s uBuffer uLength twi_zero_copy) 0 0 false).txBufferLength
        = s.txBufferLength ∧
     available (setUserBuffer P (setUserBuffer P s uBuffer uLength twi_zero_copy) 0 0 false)
        = available s) := by
  have one : ∀ (t : State) (u l : Nat) (z : Bool),
      (setUserBuffer P t u l z).rxBufferIndex = t.rxBufferIndex ∧
      (setUserBuffer P t u l z).rxBufferLength = t.rxBufferLength ∧
      (setUserBuffer P t u l z).txBufferIndex = t.txBufferIndex ∧
      (setUserBuffer P t u l z).txBufferLength = t.txBufferLength ∧
      available (setUserBuffer P t u l z) = available t := by
    intro t u l z
    rw [setUserBuffer_eq]
    split <;> exact ⟨rfl, rfl, rfl, rfl, rfl⟩
  obtain ⟨a1, a2, a3, a4, a5⟩ := one s uBuffer uLength twi_zero_copy
  obtain ⟨b1, b2, b3, b4, b5⟩ := one (setUserBuffer P s uBuffer uLength twi_zero_copy) 0 0 false
  exact ⟨⟨a1, a2, a3, a4, a5⟩, b1.trans a1, b2.trans a2, b3.trans a3, b4.trans a4, b5.trans a5⟩

/-- The driver target after `requestFrom`: untouched without an inner address
write or with the internal buffer, and `(txBuffer, X_BUFFER_LENGTH)` after an
inner address write with an external buffer, whatever it was before. -/
theorem requestFrom_twiUserBuffer (s : State)
    (address quantity iaddress isize sendStop wret : Nat) (rd : ReadReply) :
    (requestFrom s address quantity iaddress isize sendStop wret rd).1.twiUserBuffer =
      if isize > 0 ∧ s.bUserBuffer = true then (s.txBuffer, s.X_BUFFER_LENGTH)
      else s.twiUserBuffer := by
  unfold requestFrom
  by_cases hi : isize > 0
  · obtain ⟨m, e, len, payload, hm⟩ := requestFromInner_frame s address iaddress isize wret
    simp only [hi, if_true, hm, twi_readFrom, true_and]
  · simp only [hi, if_false, twi_readFrom, false_and]

/-- C10: the code where the claim fails. With an external buffer configured
with `zero_copy = false` the driver target is cleared, `(NULL, 0)`; after
`requestFrom(0x50, 4, 0x10, 1, true)` the driver target is the external buffer
`(0x200, 16)`: the restore after the inner address write installs
`(txBuffer, X_BUFFER_LENGTH)` whenever an external buffer is active, not what
the target was. -/
theorem C10_requestFrom_enables_zero_copy :
    sExtCopy.bUserBuffer = true ∧ sExtCopy.twiUserBuffer = (0, 0) ∧
    ∀ rd : ReadReply,
      (requestFrom sExtCopy 0x50 4 0x10 1 1 0 rd).1.twiUserBuffer = (0x200, 16) ∧
      (requestFrom sExtCopy 0x50 4 0x10 1 1 0 rd).1.trace =
        sExtCopy.trace ++
          [Event.twi_setUserBuffer 0 0, Event.twi_writeTo 0x50 0x200 1 1 0 [0],
           Event.twi_setUserBuffer 0x200 16, Event.twi_readFrom 0x50 0x200 4 1] :=
  ⟨rfl, rfl, fun _ => ⟨rfl, rfl⟩⟩

/-- C11 fails: the state reached by buffering three bytes in the internal
buffer and then switching to an external buffer of 2 bytes is reachable and has
the write cursor at `(3, 3)` with capacity 2; so is the state after
`writeZeroCopy(40)` on a buffer of 32 bytes, with the cursor at `(40, 40)`. -/
theorem C11_write_cursor_bound_counterexample :
    Reachable P0 sShrunkTx ∧
    sShrunkTx.txBufferLength = 3 ∧ sShrunkTx.X_BUFFER_LENGTH = 2 ∧
    ¬ (sShrunkTx.txBufferIndex ≤ sShrunkTx.txBufferLength ∧
       sShrunkTx.txBufferLength ≤ sShrunkTx.X_BUFFER_LENGTH) ∧
    Reachable P0 sOverrun ∧
    ¬ (sOverrun.txBufferIndex ≤ sOverrun.txBufferLength ∧
       sOverrun.txBufferLength ≤ sOverrun.X_BUFFER_LENGTH) :=
  ⟨Reachable.setUserBuffer 0x200 2 false (by decide)
     (Reachable.writeBytes (fun i => i + 1) 3
       (Reachable.beginTransmission 0x50 (Reachable.init mem0))),
   by decide, by decide, by decide,
   Reachable.writeZeroCopy 40
     (Reachable.beginTransmission 0x50
       (Reachable.setUserBuffer 0x200 32 true (by decide) (Reachable.init mem0))),
   by decide⟩

/-- C11 as amended: in every state reached from the initial state by public
operations and driver upcalls in which every `setUserBuffer` call leaves a
capacity of at least the current write length, and every `writeZeroCopy(n)` in
master-transmitting mode has `n` at most the capacity, the write cursor
satisfies `0 <= txIndex <= txLength <= capacity` (with `txIndex = txLength`). -/
theorem C11_write_cursor_bound_disciplined (P : Platform) (s : State)
    (h : ReachableBy P (TxDiscipline P) s) :
    0 ≤ s.txBufferIndex ∧ s.txBufferIndex ≤ s.txBufferLength ∧
    s.txBufferLength ≤ s.X_BUFFER_LENGTH ∧ s.txBufferIndex = s.txBufferLength := by
  have hinv := reachable_txInv P s (reachableBy_reachable P _ (fun _ _ _ _ h => h.1) s h)
  have hle := txRun_le P s h
  exact ⟨Nat.zero_le _, Nat.le_of_eq hinv.1, hle, hinv.1⟩

/-- C11 as amended, at `setUserBuffer(0x200, 2, false)`, `beginTransmission`,
`write(0xAA)`. -/
theorem C11_write_cursor_bound_disciplined_witness :
    ReachableBy P0 (TxDiscipline P0) (write sTinyTx 0xAA).1 ∧
    (write sTinyTx 0xAA).1.txBufferLength ≤ (write sTinyTx 0xAA).1.X_BUFFER_LENGTH :=
  have h : ReachableBy P0 (TxDiscipline P0) (write sTinyTx 0xAA).1 :=
    ReachableBy.step (Call.write 0xAA)
      (ReachableBy.step (Call.beginTransmission 0x50)
        (ReachableBy.step (Call.setUserBuffer 0x200 2 false) (ReachableBy.init mem0)
          ⟨by decide, by decide⟩ rfl)
        trivial rfl)
      trivial rfl
  ⟨h, (C11_write_cursor_bound_disciplined P0 _ h).2.2.1⟩

/-- C12 fails, with a driver as the claim assumes it: after a master read of
four bytes into the internal buffer, switching to an external buffer of 2 bytes
leaves the read cursor at `(0, 4)` with capacity 2, and after two reads
`read()` indexes position 2 of the 2-byte buffer; and a data-received upcall
of 3 bytes on a 2-byte buffer leaves the read length 3. -/
theorem C12_read_cursor_bound_counterexample :
    ReachableBy P0 RxAssumed sShrunkRx ∧
    sShrunkRx.rxBufferLength = 4 ∧ sShrunkRx.X_BUFFER_LENGTH = 2 ∧
    ¬ (sShrunkRx.rxBufferIndex ≤ sShrunkRx.rxBufferLength ∧
       sShrunkRx.rxBufferLength ≤ sShrunkRx.X_BUFFER_LENGTH) ∧
    (readTimes 2 sShrunkRx).rxBufferIndex < (readTimes 2 sShrunkRx).rxBufferLength ∧
    ¬ ((readTimes 2 sShrunkRx).rxBufferIndex < (readTimes 2 sShrunkRx).X_BUFFER_LENGTH) ∧
    ∃ t, onReceiveService (onReceive sExtTiny 0x1234) (fun i => i + 1) 3 = some t ∧
      ReachableBy P0 RxAssumed t ∧ ¬ (t.rxBufferLength ≤ t.X_BUFFER_LENGTH) :=
  ⟨ReachableBy.step (Call.setUserBuffer 0x200 2 false)
     (ReachableBy.step (Call.requestFrom 0x50 4 0 0 1 0 ⟨[1, 2, 3, 4], 4⟩)
       (ReachableBy.init mem0)
       (show (4 : Nat) ≤ min 4 (initial P0 mem0).X_BUFFER_LENGTH from by decide) rfl)
     (show (2 : Nat) < 256 from by decide) rfl,
   by decide, by decide, by decide, by decide, by decide,
   ⟨_, rfl,
    ReachableBy.step (Call.onReceiveService (fun i => i + 1) 3)
      (ReachableBy.step (Call.onReceive 0x1234)
        (ReachableBy.step (Call.setUserBuffer 0x200 2 false) (ReachableBy.init mem0)
          (show (2 : Nat) < 256 from by decide) rfl)
        trivial rfl)
      (show (0 : Int) ≤ 3 from by decide) rfl,
    by decide⟩⟩

/-- C12 as amended: in every state reached from the initial state by public
operations and driver upcalls, with a driver whose read returns at most the
requested count and whose data-received upcall delivers `n` bytes with
`0 <= n <= capacity`, and with every `setUserBuffer` call leaving a capacity of
at least the current read length, the read cursor satisfies
`0 <= rxIndex <= rxLength <= capacity`, so a `read()` or `peek()` that takes a
byte indexes inside the active buffer. -/
theorem C12_read_cursor_bound_disciplined (P : Platform) (s : State)
    (h : ReachableBy P (RxDiscipline P) s) :
    0 ≤ s.rxBufferIndex ∧ s.rxBufferIndex ≤ s.rxBufferLength ∧
    s.rxBufferLength ≤ s.X_BUFFER_LENGTH ∧
    (s.rxBufferIndex < s.rxBufferLength → s.rxBufferIndex < s.X_BUFFER_LENGTH) := by
  have hinv := reachable_rxInv P s (reachableBy_reachable P _ (fun _ _ _ _ h => h.1) s h)
  have hle := rxRun_le P s h
  exact ⟨Nat.zero_le _, hinv.1, hle, fun hlt => Nat.lt_of_lt_of_le hlt hle⟩

/-- C12 as amended, at a master read of four bytes followed by one `read()`. -/
theorem C12_read_cursor_bound_disciplined_witness :
    ReachableBy P0 (RxDiscipline P0) (read sRead4).1 ∧
    (read sRead4).1.rxBufferIndex ≤ (read sRead4).1.rxBufferLength ∧
    (read sRead4).1.rxBufferLength ≤ (read sRead4).1.X_BUFFER_LENGTH :=
  have h : ReachableBy P0 (RxDiscipline P0) (read sRead4).1 :=
    ReachableBy.step Call.read
      (ReachableBy.step (Call.requestFrom 0x50 4 0 0 1 0 ⟨[1, 2, 3, 4], 4⟩)
        (ReachableBy.init mem0)
        (show (4 : Nat) ≤ min 4 (initial P0 mem0).X_BUFFER_LENGTH from by decide) rfl)
      trivial rfl
  ⟨h, (C12_read_cursor_bound_disciplined P0 _ h).2.1,
   (C12_read_cursor_bound_disciplined P0 _ h).2.2.1⟩

/-- C13 fails: in master-transmitting mode on a buffer of 2 bytes,
`write(data, 3)` raises the write-error flag but returns 3, not 0; and with the
write length 3 already above a capacity of 2, `write(data, 0)` meets
`txLength + n > capacity` and leaves the write-error flag clear. -/
theorem C13_write_bytes_return_counterexample :
    sTinyTx.transmitting ≠ 0 ∧
    sTinyTx.txBufferLength + 3 > sTinyTx.X_BUFFER_LENGTH ∧
    (writeBytes sTinyTx (fun i => i + 10) 3).1.write_error = 1 ∧
    (writeBytes sTinyTx (fun i => i + 10) 3).2 = 3 ∧
    ¬ ((writeBytes sTinyTx (fun i => i + 10) 3).2 = 0) ∧
    sShrunkTx.transmitting ≠ 0 ∧
    sShrunkTx.txBufferLength + 0 > sShrunkTx.X_BUFFER_LENGTH ∧
    (writeBytes sShrunkTx (fun i => i + 10) 0).1.write_error = 0 := by
  decide

/-- C13 as amended: in master-transmitting mode, in every reachable state, a
`write(bytes, n)` call of `n >= 1` bytes with `txLength + n > capacity` sets the
write-error flag and returns `n`, the quantity it was asked to write. -/
theorem C13_write_bytes_overflow (P : Platform) (s : State) (hs : Reachable P s)
    (data : Nat → Nat) (n : Nat) (ht : s.transmitting ≠ 0) (hn : 0 < n)
    (hover : s.txBufferLength + n > s.X_BUFFER_LENGTH) :
    (writeBytes s data n).1.write_error = 1 ∧ (writeBytes s data n).2 = n := by
  have hinv := reachable_txInv P s hs
  constructor
  · rw [writeBytes_eq s data n ht, writeAll_closed _ s ht hinv]
    have hlong : ((List.range n).map data).length > s.X_BUFFER_LENGTH - s.txBufferLength := by
      rw [List.length_map, List.length_range]
      omega
    simp only [hlong, if_true]
  · simp [writeBytes, ht]

/-- C13 as amended, at three bytes into the external buffer of 2 bytes. -/
theorem C13_write_bytes_overflow_witness :
    Reachable P0 sTinyTx ∧ sTinyTx.transmitting ≠ 0 ∧ 0 < 3 ∧
    sTinyTx.txBufferLength + 3 > sTinyTx.X_BUFFER_LENGTH ∧
    (writeBytes sTinyTx (fun i => i + 10) 3).1.write_error = 1 ∧
    (writeBytes sTinyTx (fun i => i + 10) 3).2 = 3 :=
  have h : Reachable P0 sTinyTx :=
    Reachable.beginTransmission 0x50
      (Reachable.setUserBuffer 0x200 2 false (by decide) (Reachable.init mem0))
  ⟨h, by decide, by decide, by decide,
   C13_write_bytes_overflow P0 sTinyTx h (fun i => i + 10) 3 (by decide) (by decide)
     (by decide)⟩

/-- C14: for every `setUserBuffer(ptr, len, zero_copy)`, with `BUFFER_LENGTH`
fitting the `uint8_t` capacity variable: if `ptr` is non-null and `len > 0`, the
buffer for reading and for writing becomes `ptr` with capacity `len`, and the
driver zero-copy target is set to `(ptr, len)` when `zero_copy` is true and
cleared to `(NULL, 0)` when it is false; otherwise the buffer for reading and
for writing becomes the internal `xBuffer` with capacity `BUFFER_LENGTH` and the
driver target is cleared whatever `zero_copy` is. Each time exactly one
`twi_setUserBuffer` call is made. -/
theorem C14_setUserBuffer_effect (P : Platform) (s : State) (uBuffer uLength : Nat)
    (twi_zero_copy : Bool) (hBL : P.BUFFER_LENGTH < 256) :
    setUserBuffer P s uBuffer uLength twi_zero_copy =
      if uBuffer ≠ 0 ∧ uLength > 0 then
        { s with bUserBuffer := true
                 X_BUFFER_LENGTH := uLength
                 rxBuffer := uBuffer
                 txBuffer := uBuffer
                 twiUserBuffer := if twi_zero_copy then (uBuffer, uLength) else (0, 0)
                 trace := s.trace ++
                   [if twi_zero_copy then Event.twi_setUserBuffer uBuffer uLength
                    else Event.twi_setUserBuffer 0 0] }
      else
        { s with bUserBuffer := false
                 X_BUFFER_LENGTH := P.BUFFER_LENGTH
                 rxBuffer := P.xBuffer
                 txBuffer := P.xBuffer
                 twiUserBuffer := (0, 0)
                 trace := s.trace ++ [Event.twi_setUserBuffer 0 0] } := by
  rw [setUserBuffer_eq, Nat.mod_eq_of_lt hBL]
  by_cases hc : uBuffer ≠ 0 ∧ uLength ≠ 0
  · have hc2 : uBuffer ≠ 0 ∧ uLength > 0 := ⟨hc.1, Nat.pos_of_ne_zero hc.2⟩
    rw [if_pos hc, if_pos hc2]
  · have hc2 : ¬ (uBuffer ≠ 0 ∧ uLength > 0) := fun h => hc ⟨h.1, Nat.pos_iff_ne_zero.mp h.2⟩
    rw [if_neg hc, if_neg hc2]

/-- C14 at the three forms of the call on the freshly started program. -/
theorem C14_setUserBuffer_effect_witness :
    P0.BUFFER_LENGTH < 256 ∧
    (setUserBuffer P0 s0 0x200 16 true).twiUserBuffer = (0x200, 16) ∧
    (setUserBuffer P0 s0 0x200 16 true).X_BUFFER_LENGTH = 16 ∧
    (setUserBuffer P0 s0 0x200 16 false).twiUserBuffer = (0, 0) ∧
    (setUserBuffer P0 s0 0x200 16 false).rxBuffer = 0x200 ∧
    (setUserBuffer P0 sExt 0 0 true).twiUserBuffer = (0, 0) ∧
    (setUserBuffer P0 sExt 0 0 true).X_BUFFER_LENGTH = 32 :=
  ⟨by decide,
   by rw [C14_setUserBuffer_effect P0 s0 0x200 16 true (by decide)]; rfl,
   by rw [C14_setUserBuffer_effect P0 s0 0x200 16 true (by decide)]; rfl,
   by rw [C14_setUserBuffer_effect P0 s0 0x200 16 false (by decide)]; rfl,
   by rw [C14_setUserBuffer_effect P0 s0 0x200 16 false (by decide)]; rfl,
   by rw [C14_setUserBuffer_effect P0 sExt 0 0 true (by decide)]; rfl,
   by rw [C14_setUserBuffer_effect P0 sExt 0 0 true (by decide)]; rfl⟩

/-- C15: for every state, every stop flag and every status code `ret` the
driver write returns (a `uint8_t`), `endTransmission(sendStop)` returns exactly
`ret` and leaves the write cursor at `(0,0)` and `transmitting = 0`; and
`endTransmission()` is `endTransmission(true)`. -/
theorem C15_endTransmission_result (s : State) (sendStop ret : Nat) (hret : ret < 256) :
    (endTransmission s sendStop ret).2 = ret ∧
    (endTransmission s sendStop ret).1.txBufferIndex = 0 ∧
    (endTransmission s sendStop ret).1.txBufferLength = 0 ∧
    (endTransmission s sendStop ret).1.transmitting = 0 ∧
    endTransmissionVoid s ret = endTransmission s 1 ret :=
  ⟨Nat.mod_eq_of_lt hret, rfl, rfl, rfl, rfl⟩

/-- C15 at the status 2 (address not acknowledged) after one buffered byte. -/
theorem C15_endTransmission_result_witness :
    (2 : Nat) < 256 ∧
    (endTransmission (write (beginTransmission s0 0x50) 0xAA).1 0 2).2 = 2 ∧
    (endTransmission (write (beginTransmission s0 0x50) 0xAA).1 0 2).1.txBufferLength = 0 ∧
    (endTransmission (write (beginTransmission s0 0x50) 0xAA).1 0 2).1.transmitting = 0 :=
  ⟨by decide,
   (C15_endTransmission_result (write (beginTransmission s0 0x50) 0xAA).1 0 2 (by decide)).1,
   (C15_endTransmission_result (write (beginTransmission s0 0x50) 0xAA).1 0 2
      (by decide)).2.2.1,
   (C15_endTransmission_result (write (beginTransmission s0 0x50) 0xAA).1 0 2
      (by decide)).2.2.2.1⟩

/-- C16: for every state, `peek()` returns what the next `read()` would return,
`buffer[rxIndex]` if `rxIndex < rxLength` and -1 otherwise, and leaves the whole
state unchanged; so a second `peek()` gives the same and `available()` is the
same before and after. -/
theorem C16_peek_is_read_without_advance (s : State) :
    (peek s).2 = (read s).2 ∧
    (peek s).2 = (if s.rxBufferIndex < s.rxBufferLength
                  then (s.mem (s.rxBuffer + s.rxBufferIndex) : Int) else -1) ∧
    (peek s).1 = s ∧
    peek (peek s).1 = peek s ∧
    available (peek s).1 = available s := by
  have h1 : (peek s).1 = s := by
    unfold peek
    split <;> rfl
  refine ⟨?_, ?_, h1, by rw [h1], by rw [h1]⟩
  · unfold peek read
    split <;> rfl
  · unfold peek
    split <;> rfl

/-- C17: in master-transmitting mode, in every reachable state, for every byte
array `data` and count `n`, the state after `write(data, n)` is the state after
the `n` calls `write(data[0])`, …, `write(data[n-1])`, and it is the state of
the bulk copy `writeBulk`: the first `min(n, capacity - txLength)` bytes
appended at the cursor in order, the write-error flag raised when `n` exceeds
the remaining capacity and left as it was otherwise (so, starting with the flag
clear, it is set exactly when `n` exceeds the remaining capacity). -/
theorem C17_write_bytes_refines (P : Platform) (s : State) (hs : Reachable P s)
    (data : Nat → Nat) (n : Nat) (ht : s.transmitting ≠ 0) :
    (writeBytes s data n).1 = writeAll s ((List.range n).map data) ∧
    (writeBytes s data n).1 = writeBulk s data n ∧
    (s.write_error = 0 →
      ((writeBytes s data n).1.write_error = 1 ↔ n > s.X_BUFFER_LENGTH - s.txBufferLength)) := by
  have hinv := reachable_txInv P s hs
  have htake : ((List.range n).map data).take (s.X_BUFFER_LENGTH - s.txBufferLength)
      = (List.range (min n (s.X_BUFFER_LENGTH - s.txBufferLength))).map data := by
    rw [← List.map_take, List.take_range, Nat.min_comm]
  have hbulk : (writeBytes s data n).1 = writeBulk s data n := by
    rw [writeBytes_eq s data n ht, writeAll_closed _ s ht hinv, htake, List.length_map,
      List.length_range]
    rfl
  refine ⟨writeBytes_eq s data n ht, hbulk, ?_⟩
  intro hclear
  rw [hbulk]
  simp only [writeBulk]
  by_cases hlong : n > s.X_BUFFER_LENGTH - s.txBufferLength
  · simp [hlong]
  · simp [hlong, hclear]

/-- C17 at three bytes into the external buffer of 2 bytes: two are stored, the
write-error flag is raised. -/
theorem C17_write_bytes_refines_witness :
    Reachable P0 sTinyTx ∧ sTinyTx.transmitting ≠ 0 ∧
    (writeBytes sTinyTx (fun i => i + 10) 3).1 = writeBulk sTinyTx (fun i => i + 10) 3 ∧
    (writeBulk sTinyTx (fun i => i + 10) 3).txBufferLength = 2 ∧
    (writeBulk sTinyTx (fun i => i + 10) 3).write_error = 1 ∧
    Mem.load (writeBulk sTinyTx (fun i => i + 10) 3).mem 0x200 2 = [10, 11] :=
  have h : Reachable P0 sTinyTx :=
    Reachable.beginTransmission 0x50
      (Reachable.setUserBuffer 0x200 2 false (by decide) (Reachable.init mem0))
  ⟨h, by decide,
   (C17_write_bytes_refines P0 sTinyTx h (fun i => i + 10) 3 (by decide)).2.1,
   by decide, by decide, by decide⟩

/-- C18: in every state reachable from the initial state by public operations
and driver upcalls, whatever the driver answers (counts narrowed to 8 bits),
`rxIndex <= rxLength` holds; so `available()` is never negative, and it is 0
exactly when `read()` returns the sentinel -1. -/
theorem C18_available_nonneg (P : Platform) (s : State) (hs : Reachable P s) :
    s.rxBufferIndex ≤ s.rxBufferLength ∧ 0 ≤ available s ∧
    (available s = 0 ↔ (read s).2 = -1) := by
  have hinv := reachable_rxInv P s hs
  have hle := hinv.1
  refine ⟨hle, ?_, ?_⟩
  · unfold available
    omega
  · unfold available read
    by_cases hlt : s.rxBufferIndex < s.rxBufferLength
    · simp only [hlt, if_true]
      constructor
      · intro h; omega
      · intro h
        have hnn : (0 : Int) ≤ (s.mem (s.rxBuffer + s.rxBufferIndex) : Int) := Int.ofNat_nonneg _
        omega
    · simp only [hlt, if_false]
      constructor
      · intro _; trivial
      · intro _; omega

/-- C18 after a master read of four bytes and one `read()`: three bytes are
available and `read()` does not return the sentinel. -/
theorem C18_available_nonneg_witness :
    Reachable P0 (read sRead4).1 ∧
    (read sRead4).1.rxBufferIndex ≤ (read sRead4).1.rxBufferLength ∧
    (0 : Int) ≤ available (read sRead4).1 ∧ available (read sRead4).1 = 3 :=
  have h : Reachable P0 (read sRead4).1 :=
    Reachable.read (Reachable.requestFrom 0x50 4 0 0 1 0 ⟨[1, 2, 3, 4], 4⟩ (Reachable.init mem0))
  ⟨h, (C18_available_nonneg P0 _ h).1, (C18_available_nonneg P0 _ h).2.1, by decide⟩

/-- C19: in every state reachable from the initial state by public operations
(`writeZeroCopy` with any `n`, `setUserBuffer` with any buffer) and driver
upcalls, `txIndex == txLength` holds; therefore in master-transmitting mode
`write(byte)` either stores nothing (the length has reached the capacity) or
stores its byte at `txBuffer[txIndex]` with `txIndex` strictly below the active
capacity. -/
theorem C19_write_store_in_bounds (P : Platform) (s : State) (hs : Reachable P s) (b : Nat) :
    s.txBufferIndex = s.txBufferLength ∧
    (s.transmitting ≠ 0 →
      (write s b).1.mem = s.mem ∨
      (s.txBufferIndex < s.X_BUFFER_LENGTH ∧
       (write s b).1.mem = s.mem.store (s.txBuffer + s.txBufferIndex) b)) := by
  have hinv := reachable_txInv P s hs
  refine ⟨hinv.1, ?_⟩
  intro ht
  by_cases hfull : s.txBufferLength ≥ s.X_BUFFER_LENGTH
  · left
    simp [write, ht, hfull, setWriteError]
  · right
    refine ⟨by have := hinv.1; omega, ?_⟩
    simp [write, ht, hfull]

/-- C19 after `writeZeroCopy(40)` on a buffer of 32 bytes (the cursor is at
`(40, 40)` and `write` stores nothing) and on the first `write` of a
transmission (stored at index 0). -/
theorem C19_write_store_in_bounds_witness :
    Reachable P0 sOverrun ∧ sOverrun.transmitting ≠ 0 ∧
    sOverrun.txBufferIndex = sOverrun.txBufferLength ∧
    (write sOverrun 0xAA).1.mem = sOverrun.mem ∧
    Reachable P0 sTinyTx ∧
    sTinyTx.txBufferIndex < sTinyTx.X_BUFFER_LENGTH ∧
    (write sTinyTx 0xAA).1.mem = sTinyTx.mem.store (sTinyTx.txBuffer + sTinyTx.txBufferIndex) 0xAA :=
  have h1 : Reachable P0 sOverrun :=
    Reachable.writeZeroCopy 40
      (Reachable.beginTransmission 0x50
        (Reachable.setUserBuffer 0x200 32 true (by decide) (Reachable.init mem0)))
  have h2 : Reachable P0 sTinyTx :=
    Reachable.beginTransmission 0x50
      (Reachable.setUserBuffer 0x200 2 false (by decide) (Reachable.init mem0))
  ⟨h1, by decide, (C19_write_store_in_bounds P0 sOverrun h1 0xAA).1, rfl,
   h2, by decide, rfl⟩

/-- C20: in every reachable state the read cursor and the write cursor address
the same buffer (`rxBuffer = txBuffer`), and `write` does not look at the read
cursor: in master-transmitting mode with `txLength < capacity`, whenever
`rxIndex == txIndex < rxLength`, `write(b)` stores `b` at the position the read
cursor points to and the next `read()` returns `b`. -/
theorem C20_write_overwrites_unread (P : Platform) (s : State) (hs : Reachable P s) (b : Nat)
    (ht : s.transmitting ≠ 0) (hroom : s.txBufferLength < s.X_BUFFER_LENGTH)
    (heq : s.rxBufferIndex = s.txBufferIndex) (hunread : s.rxBufferIndex < s.rxBufferLength) :
    s.rxBuffer = s.txBuffer ∧
    (write s b).1.mem (s.rxBuffer + s.rxBufferIndex) = b ∧
    (read (write s b).1).2 = (b : Int) := by
  have hrx := reachable_rxInv P s hs
  have hfull : ¬ s.txBufferLength ≥ s.X_BUFFER_LENGTH := by omega
  have hw : (write s b).1 =
      { s with mem := s.mem.store (s.txBuffer + s.txBufferIndex) b
               txBufferIndex := (s.txBufferIndex + 1) % 256
               txBufferLength := (s.txBufferIndex + 1) % 256 } := by
    simp [write, ht, hfull]
  rw [hw]
  refine ⟨hrx.2.2, ?_, ?_⟩
  · simp [Mem.store, hrx.2.2, heq]
  · have hun2 : s.txBufferIndex < s.rxBufferLength := heq ▸ hunread
    simp [read, Mem.store, hrx.2.2, heq, hun2]

/-- C20 at the scenario of the claim: a master read delivers 1, 2, 3, 4; then
`beginTransmission(0x50)`, `write(0x55)`; the next `read()` returns 0x55, where
before the write it returned 1. -/
theorem C20_write_overwrites_unread_witness :
    Reachable P0 (beginTransmission sRead4 0x50) ∧
    (beginTransmission sRead4 0x50).transmitting ≠ 0 ∧
    (beginTransmission sRead4 0x50).txBufferLength < (beginTransmission sRead4 0x50).X_BUFFER_LENGTH ∧
    (beginTransmission sRead4 0x50).rxBufferIndex = (beginTransmission sRead4 0x50).txBufferIndex ∧
    (beginTransmission sRead4 0x50).rxBufferIndex < (beginTransmission sRead4 0x50).rxBufferLength ∧
    (read (beginTransmission sRead4 0x50)).2 = 1 ∧
    (read (write (beginTransmission sRead4 0x50) 0x55).1).2 = 0x55 :=
  have h : Reachable P0 (beginTransmission sRead4 0x50) :=
    Reachable.beginTransmission 0x50
      (Reachable.requestFrom 0x50 4 0 0 1 0 ⟨[1, 2, 3, 4], 4⟩ (Reachable.init mem0))
  ⟨h, by decide, by decide, by decide, by decide, by decide,
   (C20_write_overwrites_unread P0 _ h 0x55 (by decide) (by decide) (by decide)
      (by decide)).2.2⟩

end WireZ
